import Mathlib

/-!
Verification of the EM-style parameter-learning core `clearn.c` of the
`credal` repository.

The development shallowly embeds the C source:

* `program_t` becomes `Program`: the two parameter collections (`prob_fact_t`
  array `PF` with its length `PF_n`, `annot_disj_t` array `AD` with `AD_n`)
  are modelled as functions from array index to entry, paired with lengths.
* C `double` probability values are modelled as rationals (`ℚ`), as is usual
  for exact reasoning about the real-arithmetic intent of the code.
* The index arrays built by `init_indices` are `uint16_t*` in the source, so
  storing a source index `i` into them computes `i % 2^16`; the embedding
  keeps this truncation explicit via `u16`.
* Allocation behaviour (`malloc`/`free`) is modelled by an explicit `Heap`
  of live block ids threaded through the allocating functions, with an
  oracle `ok : Nat → Bool` deciding whether each successive `malloc` call
  succeeds.
* The Python/numpy collaborators that are not part of the single source
  file (`init_observations`, `init_prob_storage_seq`, `prob_obs_reuse`, the
  `PyObject` attribute writes) are modelled from the specification, as
  documented on each definition.
-/

/-- The struct `prob_fact_t`, restricted to the fields `clearn.c` reads or writes:
the `learnable` flag and the probability `p`.  The `self` back-reference
is modelled separately by `ExtState` (the Python-side published values). -/
structure ProbFact where
  learnable : Bool
  p : ℚ
deriving DecidableEq

/-- The struct `annot_disj_t`, restricted to the fields `clearn.c` uses: the
`learnable` flag, the outcome count `n`, and the outcome-probability
array `P` (modelled as a function from outcome index). -/
structure AnnotDisj where
  learnable : Bool
  n : Nat
  P : Nat → ℚ

/-- The struct `program_t`, restricted to what `clearn.c` uses: the probabilistic-fact
array `PF` with its length `PF_n`, and the annotated-disjunction array `AD`
with its length `AD_n`.  C arrays are modelled as functions from index. -/
structure Program where
  PF_n : Nat
  PF : Nat → ProbFact
  AD_n : Nat
  AD : Nat → AnnotDisj

/-- Storing a `size_t` index into a `uint16_t` array cell truncates it
modulo 2^16 (C unsigned conversion). -/
def u16 (i : Nat) : Nat := i % 65536

/-- The struct `indices_t`: the compact index arrays over the learnable entries.
`n`/`m` are the element counts, `F`/`A` the index arrays (uint16 contents). -/
structure Indices where
  n : Nat
  m : Nat
  F : List Nat
  A : List Nat
deriving DecidableEq

/-- The fact index array built by `init_indices` (`clearn.c` lines 10-15):
a linear scan over `P->PF` collecting the positions whose `learnable` flag
is set, each stored into a `uint16_t` cell. -/
def pfIdx (P : Program) : List Nat :=
  ((List.range P.PF_n).filter (fun i => (P.PF i).learnable)).map u16

/-- The disjunction index array built by `init_indices` (`clearn.c`
lines 17-22), analogous to `pfIdx`. -/
def adIdx (P : Program) : List Nat :=
  ((List.range P.AD_n).filter (fun i => (P.AD i).learnable)).map u16

/-- The function `init_indices` (`clearn.c` lines 6-32), value content: the counting
pass computes `n`/`m` as the number of learnable entries, and the filling
pass stores the learnable positions in ascending scan order.  (Allocation
behaviour is modelled separately by `init_indices_alloc`.) -/
def init_indices (P : Program) : Indices :=
  ⟨(pfIdx P).length, (adIdx P).length, pfIdx P, adIdx P⟩

/-! ### Basic properties of the index builder -/

theorem init_indices_F (P : Program) : (init_indices P).F = pfIdx P := rfl

theorem init_indices_A (P : Program) : (init_indices P).A = adIdx P := rfl

theorem init_indices_n (P : Program) : (init_indices P).n = (pfIdx P).length := rfl

theorem init_indices_m (P : Program) : (init_indices P).m = (adIdx P).length := rfl

theorem pfIdx_length_count (P : Program) :
    (pfIdx P).length = (List.range P.PF_n).countP (fun i => (P.PF i).learnable) := by
  simp [pfIdx, List.countP_eq_length_filter]

theorem adIdx_length_count (P : Program) :
    (adIdx P).length = (List.range P.AD_n).countP (fun i => (P.AD i).learnable) := by
  simp [adIdx, List.countP_eq_length_filter]

/-- When every scanned position fits in 16 bits, the `uint16_t` store is
the identity and the fact index array is exactly the filtered range. -/
theorem pfIdx_of_small (P : Program) (h : P.PF_n ≤ 65536) :
    pfIdx P = (List.range P.PF_n).filter (fun i => (P.PF i).learnable) := by
  unfold pfIdx
  rw [List.map_eq_map_iff.mpr, List.map_id]
  intro i hi
  have : i < P.PF_n := List.mem_range.mp (List.mem_filter.mp hi).1
  simp [u16, Nat.mod_eq_of_lt (lt_of_lt_of_le this h)]

theorem adIdx_of_small (P : Program) (h : P.AD_n ≤ 65536) :
    adIdx P = (List.range P.AD_n).filter (fun i => (P.AD i).learnable) := by
  unfold adIdx
  rw [List.map_eq_map_iff.mpr, List.map_id]
  intro i hi
  have : i < P.AD_n := List.mem_range.mp (List.mem_filter.mp hi).1
  simp [u16, Nat.mod_eq_of_lt (lt_of_lt_of_le this h)]

theorem filter_range_sorted (n : Nat) (p : Nat → Bool) :
    ((List.range n).filter p).Sorted (· < ·) :=
  List.Pairwise.sublist (List.filter_sublist _) (List.pairwise_lt_range n)

/-! ### C2: index-set correctness -/

/-- The spec's index-correctness property for one index array `l` built over
a collection of length `len` with learnable flags `entry`, with reported
count `cnt`: it contains exactly the learnable positions, is ascending,
duplicate-free, each value a valid index, and its length is the learnable
count. -/
def IndexSetCorrect (len : Nat) (entry : Nat → Bool) (cnt : Nat) (l : List Nat) : Prop :=
  (∀ i, i ∈ l ↔ i < len ∧ entry i = true) ∧
  l.Sorted (· < ·) ∧
  l.Nodup ∧
  (∀ i ∈ l, i < len) ∧
  cnt = l.length ∧
  l.length = (List.range len).countP entry

theorem indexSetCorrect_of_filter (len : Nat) (entry : Nat → Bool) :
    IndexSetCorrect len entry ((List.range len).filter entry).length
      ((List.range len).filter entry) := by
  refine ⟨?_, filter_range_sorted len entry, ?_, ?_, rfl, ?_⟩
  · intro i
    simp [List.mem_filter, List.mem_range]
  · exact (List.nodup_range len).filter entry
  · intro i hi
    exact List.mem_range.mp (List.mem_filter.mp hi).1
  · simp [List.countP_eq_length_filter]

/-- C2 (amended: collections of at most 2^16 entries, so that the
`uint16_t` store in `init_indices` does not truncate).
`init_indices` produces fact and disjunction index arrays containing
exactly the learnable positions, in ascending order, without duplicates,
each a valid index, with the reported counts equal to the learnable
counts. -/
theorem C2_init_indices_index_sets_correct (P : Program)
    (hF : P.PF_n ≤ 65536) (hA : P.AD_n ≤ 65536) :
    IndexSetCorrect P.PF_n (fun i => (P.PF i).learnable)
      (init_indices P).n (init_indices P).F ∧
    IndexSetCorrect P.AD_n (fun i => (P.AD i).learnable)
      (init_indices P).m (init_indices P).A := by
  constructor
  · have h := pfIdx_of_small P hF
    show IndexSetCorrect _ _ (pfIdx P).length (pfIdx P)
    rw [h]
    exact indexSetCorrect_of_filter _ _
  · have h := adIdx_of_small P hA
    show IndexSetCorrect _ _ (adIdx P).length (adIdx P)
    rw [h]
    exact indexSetCorrect_of_filter _ _

/-- A program with 2^16 + 1 probabilistic facts whose only learnable fact
sits at position 2^16: the `uint16_t` index store truncates 65536 to 0. -/
def Pbig : Program where
  PF_n := 65537
  PF := fun i => if i = 65536 then ⟨true, 1/2⟩ else ⟨false, 1/2⟩
  AD_n := 0
  AD := fun _ => ⟨false, 0, fun _ => 0⟩

theorem pfIdx_Pbig : pfIdx Pbig = [0] := by
  have h65 : (65537 : Nat) = 65536 + 1 := rfl
  have hr : List.range Pbig.PF_n = List.range 65536 ++ [65536] := by
    show List.range 65537 = _
    rw [h65, List.range_succ]
  unfold pfIdx
  rw [hr, List.filter_append]
  have h0 : (List.range 65536).filter (fun i => (Pbig.PF i).learnable) = [] := by
    rw [List.filter_eq_nil_iff]
    intro a ha
    have hlt : a < 65536 := List.mem_range.mp ha
    simp [Pbig, Nat.ne_of_lt hlt]
  rw [h0]
  simp [Pbig, u16]

/-- C2 counterexample: on `Pbig` the fact index array is `[0]`, yet fact 0
is not learnable and the learnable position 65536 is absent — the claim's
"contains exactly the learnable positions" fails as stated for arbitrary
programs, because the index array cells are `uint16_t`. -/
theorem C2_counterexample :
    (init_indices Pbig).F = [0] ∧
    (Pbig.PF 0).learnable = false ∧
    (Pbig.PF 65536).learnable = true ∧
    65536 < Pbig.PF_n ∧
    65536 ∉ (init_indices Pbig).F := by
  have h : (init_indices Pbig).F = [0] := by
    rw [init_indices_F, pfIdx_Pbig]
  refine ⟨h, by simp [Pbig], by simp [Pbig], by decide, ?_⟩
  rw [h]
  decide

/-- A small concrete program exercising both collections. -/
def Pc2 : Program where
  PF_n := 3
  PF := fun i => if i = 1 then ⟨true, 1/2⟩ else ⟨false, 0⟩
  AD_n := 1
  AD := fun _ => ⟨true, 2, fun _ => 1/2⟩

theorem C2_init_indices_index_sets_correct_witness :
    IndexSetCorrect Pc2.PF_n (fun i => (Pc2.PF i).learnable)
      (init_indices Pc2).n (init_indices Pc2).F ∧
    IndexSetCorrect Pc2.AD_n (fun i => (Pc2.AD i).learnable)
      (init_indices Pc2).m (init_indices Pc2).A :=
  C2_init_indices_index_sets_correct Pc2 (by decide) (by decide)

/-! ### Heap model: `malloc`/`free` with an allocation-success oracle -/

/-- A heap: the id the next `malloc` call would return, and the list of
live (allocated, not yet freed) block ids. -/
structure Heap where
  next : Nat
  live : List Nat
deriving DecidableEq

/-- A `malloc` call under oracle `ok`: the call succeeds iff `ok` accepts the
next block id; the id counter advances either way. -/
def Heap.alloc (ok : Nat → Bool) (h : Heap) : Option Nat × Heap :=
  if ok h.next then (some h.next, ⟨h.next + 1, h.next :: h.live⟩)
  else (none, ⟨h.next + 1, h.live⟩)

/-- A `free` call: a no-op on `NULL` (`none`), otherwise removes the block. -/
def Heap.free (h : Heap) : Option Nat → Heap
  | none => h
  | some b => ⟨h.next, h.live.erase b⟩

theorem Heap.free_none (h : Heap) : h.free none = h := rfl

theorem Heap.live_free_some (h : Heap) (b : Nat) :
    (h.free (some b)).live = h.live.erase b := rfl

theorem erase_skip (a b : Nat) (l : List Nat) (hne : b ≠ a) :
    (b :: l).erase a = b :: l.erase a := by
  rw [List.erase_cons, if_neg (by simpa using hne)]

/-- An `init_indices` result together with the ids of the two blocks it
allocated (`none` when the corresponding count was zero and no `malloc`
was issued). -/
structure IndicesA where
  I : Indices
  bF : Option Nat
  bA : Option Nat
deriving DecidableEq

/-- The function `init_indices` (`clearn.c` lines 6-32) with its allocation behaviour:
allocates the fact index array only when `n > 0` and the disjunction index
array only when `m > 0`; on either allocation failure it raises one
`MemoryError`, frees both pointers (each possibly `NULL`) and fails.
Returns the result, the heap, and the number of errors raised. -/
def init_indices_alloc (ok : Nat → Bool) (P : Program) (h : Heap) :
    Option IndicesA × Heap × Nat :=
  if (pfIdx P).length = 0 then
    if (adIdx P).length = 0 then
      (some ⟨init_indices P, none, none⟩, h, 0)
    else
      match h.alloc ok with
      | (some bA, h1) => (some ⟨init_indices P, none, some bA⟩, h1, 0)
      | (none, h1) => (none, (h1.free none).free none, 1)
  else
    match h.alloc ok with
    | (none, h1) => (none, (h1.free none).free none, 1)
    | (some bF, h1) =>
      if (adIdx P).length = 0 then
        (some ⟨init_indices P, some bF, none⟩, h1, 0)
      else
        match h1.alloc ok with
        | (some bA, h2) => (some ⟨init_indices P, some bF, some bA⟩, h2, 0)
        | (none, h2) => (none, (h2.free (some bF)).free none, 1)

theorem Heap.alloc_some (ok : Nat → Bool) (h : Heap) (b : Nat) (h1 : Heap)
    (heq : h.alloc ok = (some b, h1)) :
    b = h.next ∧ h1.next = h.next + 1 ∧ h1.live = h.next :: h.live := by
  unfold Heap.alloc at heq
  split at heq
  · injection heq with e1 e2
    injection e1 with e1
    subst e1
    subst e2
    exact ⟨rfl, rfl, rfl⟩
  · exact absurd heq (by simp)

theorem Heap.alloc_none (ok : Nat → Bool) (h : Heap) (h1 : Heap)
    (heq : h.alloc ok = (none, h1)) :
    h1.next = h.next + 1 ∧ h1.live = h.live := by
  unfold Heap.alloc at heq
  split at heq
  · exact absurd heq (by simp)
  · injection heq with e1 e2
    subst e2
    exact ⟨rfl, rfl⟩

/-- On failure, `init_indices` restores the heap and raises one error. -/
theorem init_indices_alloc_fail (ok : Nat → Bool) (P : Program) (h h' : Heap) (e : Nat)
    (heq : init_indices_alloc ok P h = (none, h', e)) :
    h'.live = h.live ∧ e = 1 := by
  unfold init_indices_alloc at heq
  split at heq
  · split at heq
    · simp at heq
    · split at heq
      · simp at heq
      · next h1 halloc =>
        obtain ⟨-, hl⟩ := Heap.alloc_none ok h h1 halloc
        simp only [Heap.free_none, Prod.mk.injEq] at heq
        obtain ⟨-, hh, he⟩ := heq
        exact ⟨hh ▸ hl, he.symm⟩
  · split at heq
    · next h1 halloc =>
      obtain ⟨-, hl⟩ := Heap.alloc_none ok h h1 halloc
      simp only [Heap.free_none, Prod.mk.injEq] at heq
      obtain ⟨-, hh, he⟩ := heq
      exact ⟨hh ▸ hl, he.symm⟩
    · next bF h1 halloc =>
      obtain ⟨hb, -, hl1⟩ := Heap.alloc_some ok h bF h1 halloc
      split at heq
      · simp at heq
      · split at heq
        · simp at heq
        · next h2 halloc2 =>
          obtain ⟨-, hl2⟩ := Heap.alloc_none ok h1 h2 halloc2
          simp only [Heap.free_none, Prod.mk.injEq] at heq
          obtain ⟨-, hh, he⟩ := heq
          refine ⟨?_, he.symm⟩
          rw [← hh]
          simp [Heap.free, hl2, hl1, hb, List.erase_cons_head]

/-- On success, `init_indices` raises no error, returns the index content
of `init_indices`, and the heap holds exactly the blocks it allocated
(one per nonempty index array, with consecutive fresh ids). -/
theorem init_indices_alloc_spec (ok : Nat → Bool) (P : Program) (h h1 : Heap)
    (IA : IndicesA) (e : Nat)
    (heq : init_indices_alloc ok P h = (some IA, h1, e)) :
    IA.I = init_indices P ∧ e = 0 ∧
    ((IA.bF = none ∧ IA.bA = none ∧ h1 = h) ∨
     (IA.bF = none ∧ IA.bA = some h.next ∧
       h1.next = h.next + 1 ∧ h1.live = h.next :: h.live) ∨
     (IA.bF = some h.next ∧ IA.bA = none ∧
       h1.next = h.next + 1 ∧ h1.live = h.next :: h.live) ∨
     (IA.bF = some h.next ∧ IA.bA = some (h.next + 1) ∧
       h1.next = h.next + 2 ∧ h1.live = (h.next + 1) :: h.next :: h.live)) := by
  unfold init_indices_alloc at heq
  split at heq
  · split at heq
    · injection heq with e1 e2
      injection e2 with e2 e3
      injection e1 with e1
      subst e1; subst e2; subst e3
      exact ⟨rfl, rfl, Or.inl ⟨rfl, rfl, rfl⟩⟩
    · split at heq
      · next bA hA halloc =>
        obtain ⟨hb, hn, hl⟩ := Heap.alloc_some ok h bA hA halloc
        injection heq with e1 e2
        injection e2 with e2 e3
        injection e1 with e1
        subst e1; subst e2; subst e3; subst hb
        exact ⟨rfl, rfl, Or.inr (Or.inl ⟨rfl, rfl, hn, hl⟩)⟩
      · simp at heq
  · split at heq
    · simp at heq
    · next bF hF halloc =>
      obtain ⟨hb, hnF, hlF⟩ := Heap.alloc_some ok h bF hF halloc
      split at heq
      · injection heq with e1 e2
        injection e2 with e2 e3
        injection e1 with e1
        subst e1; subst e2; subst e3; subst hb
        exact ⟨rfl, rfl, Or.inr (Or.inr (Or.inl ⟨rfl, rfl, hnF, hlF⟩))⟩
      · split at heq
        · next bA hA halloc2 =>
          obtain ⟨hb2, hnA, hlA⟩ := Heap.alloc_some ok hF bA hA halloc2
          injection heq with e1 e2
          injection e2 with e2 e3
          injection e1 with e1
          subst e1; subst e2; subst e3; subst hb; subst hb2
          refine ⟨rfl, rfl, Or.inr (Or.inr (Or.inr ⟨rfl, ?_, ?_, ?_⟩))⟩
          · rw [hnF]
          · rw [hnA, hnF]
          · rw [hlA, hlF, hnF]
        · simp at heq

/-- The struct `parameters_t`: the dense (value, accumulator) pair array `F`, the
ragged per-disjunction array `A`, and the index arrays it adopts from
`init_indices`.  The contents of freshly `malloc`ed memory are
unspecified; the embedding fills them with zeros, and no theorem relies
on these initial contents — only on the shapes. -/
structure Parameters where
  n : Nat
  m : Nat
  F : List (ℚ × ℚ)
  A : List (List ℚ)
  I_F : List Nat
  I_A : List Nat
deriving DecidableEq

/-- The per-entry allocation loop of `init_parameters` (`clearn.c` lines
51-58): one `malloc` per learnable disjunction.  On a failed allocation
the entries already allocated by the loop are freed and the loop reports
failure (the C code frees them in forward order before `goto cleanup`;
the embedding frees them while unwinding, which leaves the same final
heap). -/
def alloc_ragged (ok : Nat → Bool) : Nat → Heap → Option (List Nat) × Heap
  | 0, h => (some [], h)
  | k + 1, h =>
    match h.alloc ok with
    | (none, h1) => (none, h1)
    | (some b, h1) =>
      match alloc_ragged ok k h1 with
      | (none, h2) => (none, h2.free (some b))
      | (some bs, h2) => (some (b :: bs), h2)

/-- A failed ragged pass leaves the heap's live set as it found it. -/
theorem alloc_ragged_fail (ok : Nat → Bool) :
    ∀ (k : Nat) (h h2 : Heap), alloc_ragged ok k h = (none, h2) →
      h2.live = h.live := by
  intro k
  induction k with
  | zero => intro h h2 heq; simp [alloc_ragged] at heq
  | succ k ih =>
    intro h h2 heq
    unfold alloc_ragged at heq
    split at heq
    · next h1 halloc =>
      injection heq with e1 e2
      subst e2
      exact (Heap.alloc_none ok h h1 halloc).2
    · next b h1 halloc =>
      obtain ⟨hb, hn1, hl1⟩ := Heap.alloc_some ok h b h1 halloc
      split at heq
      · next h3 hrec =>
        injection heq with e1 e2
        subst e2
        have h3l : h3.live = h1.live := ih h1 h3 hrec
        rw [Heap.live_free_some, h3l, hl1, hb, List.erase_cons_head]
      · simp at heq

/-- The function `init_parameters` (`clearn.c` lines 36-70): builds the index set, then
allocates the dense pair array `F`, the ragged spine `A`, and one block
per learnable disjunction.  Any allocation failure frees, as the C
cleanup path does, `I_F`, `I_A`, `F` and `A` (each possibly `NULL`) after
the loop has freed its own entries, raising exactly one `MemoryError`;
an `init_indices` failure is propagated as is. -/
def init_parameters_alloc (ok : Nat → Bool) (P : Program) (h : Heap) :
    Option Parameters × Heap × Nat :=
  match init_indices_alloc ok P h with
  | (none, h1, e) => (none, h1, e)
  | (some IA, h1, _) =>
    match h1.alloc ok with
    | (none, h2) =>
      (none, (((h2.free IA.bF).free IA.bA).free none).free none, 1)
    | (some bFa, h2) =>
      match h2.alloc ok with
      | (none, h3) =>
        (none, (((h3.free IA.bF).free IA.bA).free (some bFa)).free none, 1)
      | (some bAa, h3) =>
        match alloc_ragged ok (adIdx P).length h3 with
        | (none, h4) =>
          (none, (((h4.free IA.bF).free IA.bA).free (some bFa)).free (some bAa), 1)
        | (some _, h4) =>
          (some ⟨(pfIdx P).length, (adIdx P).length,
                 List.replicate (pfIdx P).length (0, 0),
                 (adIdx P).map (fun idx => List.replicate (P.AD idx).n 0),
                 pfIdx P, adIdx P⟩, h4, 0)

/-! ### C6: full rollback on allocation failure -/

theorem erase_stack2 (k : Nat) (l : List Nat) :
    (((k + 1) :: k :: l).erase k).erase (k + 1) = l := by
  rw [erase_skip k (k + 1) _ (Nat.succ_ne_self k), List.erase_cons_head,
    List.erase_cons_head]

theorem erase_stack3 (k : Nat) (l : List Nat) :
    ((((k + 2) :: (k + 1) :: k :: l).erase k).erase (k + 1)).erase (k + 2) = l := by
  rw [erase_skip k (k + 2) _ (by omega), erase_skip k (k + 1) _ (by omega),
    List.erase_cons_head, erase_skip (k + 1) (k + 2) _ (by omega),
    List.erase_cons_head, List.erase_cons_head]

theorem erase_stack4 (k : Nat) (l : List Nat) :
    (((((k + 3) :: (k + 2) :: (k + 1) :: k :: l).erase k).erase
      (k + 1)).erase (k + 2)).erase (k + 3) = l := by
  rw [erase_skip k (k + 3) _ (by omega), erase_skip k (k + 2) _ (by omega),
    erase_skip k (k + 1) _ (by omega), List.erase_cons_head,
    erase_skip (k + 1) (k + 3) _ (by omega), erase_skip (k + 1) (k + 2) _ (by omega),
    List.erase_cons_head, erase_skip (k + 2) (k + 3) _ (by omega),
    List.erase_cons_head, List.erase_cons_head]

/-- On any allocation failure, `init_parameters` leaves the heap's live
set exactly as it found it, raising exactly one error. -/
theorem init_parameters_alloc_fail (ok : Nat → Bool) (P : Program) (h h' : Heap) (e : Nat)
    (heq : init_parameters_alloc ok P h = (none, h', e)) :
    h'.live = h.live ∧ e = 1 := by
  unfold init_parameters_alloc at heq
  split at heq
  · next h1 e0 hidx =>
    injection heq with e1 e2
    injection e2 with e2 e3
    subst e2; subst e3
    exact init_indices_alloc_fail ok P h h1 e0 hidx
  · next IA h1 e0 hidx =>
    obtain ⟨-, -, hcases⟩ := init_indices_alloc_spec ok P h h1 IA e0 hidx
    split at heq
    · next h2 hF =>
      obtain ⟨hn2, hl2⟩ := Heap.alloc_none ok h1 h2 hF
      injection heq with e1 e2
      injection e2 with e2 e3
      subst e2; subst e3
      refine ⟨?_, rfl⟩
      rcases hcases with ⟨hbF, hbA, h1h⟩ | ⟨hbF, hbA, hn1, hl1⟩ |
        ⟨hbF, hbA, hn1, hl1⟩ | ⟨hbF, hbA, hn1, hl1⟩
      · rw [hbF, hbA]
        simp only [Heap.free_none]
        rw [hl2, h1h]
      · rw [hbF, hbA]
        simp only [Heap.free_none, Heap.live_free_some]
        rw [hl2, hl1, List.erase_cons_head]
      · rw [hbF, hbA]
        simp only [Heap.free_none, Heap.live_free_some]
        rw [hl2, hl1, List.erase_cons_head]
      · rw [hbF, hbA]
        simp only [Heap.free_none, Heap.live_free_some]
        rw [hl2, hl1]
        exact erase_stack2 h.next h.live
    · next bFa h2 hF =>
      obtain ⟨hbFa, hn2, hl2⟩ := Heap.alloc_some ok h1 bFa h2 hF
      split at heq
      · next h3 hA =>
        obtain ⟨hn3, hl3⟩ := Heap.alloc_none ok h2 h3 hA
        injection heq with e1 e2
        injection e2 with e2 e3
        subst e2; subst e3
        refine ⟨?_, rfl⟩
        rcases hcases with ⟨hbF, hbA, h1h⟩ | ⟨hbF, hbA, hn1, hl1⟩ |
          ⟨hbF, hbA, hn1, hl1⟩ | ⟨hbF, hbA, hn1, hl1⟩
        · rw [hbF, hbA, hbFa]
          simp only [Heap.free_none, Heap.live_free_some]
          rw [hl3, hl2, h1h, List.erase_cons_head]
        · rw [hbF, hbA, hbFa]
          simp only [Heap.free_none, Heap.live_free_some]
          rw [hl3, hl2, hl1, hn1]
          exact erase_stack2 h.next h.live
        · rw [hbF, hbA, hbFa]
          simp only [Heap.free_none, Heap.live_free_some]
          rw [hl3, hl2, hl1, hn1]
          exact erase_stack2 h.next h.live
        · rw [hbF, hbA, hbFa]
          simp only [Heap.free_none, Heap.live_free_some]
          rw [hl3, hl2, hl1, hn1]
          have h3eq : h.next + 1 + 1 = h.next + 2 := by omega
          rw [h3eq]
          exact erase_stack3 h.next h.live
      · next bAa h3 hA =>
        obtain ⟨hbAa, hn3, hl3⟩ := Heap.alloc_some ok h2 bAa h3 hA
        split at heq
        · next h4 hrg =>
          have hl4 : h4.live = h3.live := alloc_ragged_fail ok _ h3 h4 hrg
          injection heq with e1 e2
          injection e2 with e2 e3
          subst e2; subst e3
          refine ⟨?_, rfl⟩
          rcases hcases with ⟨hbF, hbA, h1h⟩ | ⟨hbF, hbA, hn1, hl1⟩ |
            ⟨hbF, hbA, hn1, hl1⟩ | ⟨hbF, hbA, hn1, hl1⟩
          · rw [hbF, hbA, hbFa, hbAa]
            simp only [Heap.free_none, Heap.live_free_some]
            rw [hl4, hl3, hn2, hl2, h1h]
            exact erase_stack2 h.next h.live
          · rw [hbF, hbA, hbFa, hbAa]
            simp only [Heap.free_none, Heap.live_free_some]
            rw [hl4, hl3, hn2, hl2, hl1, hn1]
            have e1 : h.next + 1 + 1 = h.next + 2 := by omega
            rw [e1]
            exact erase_stack3 h.next h.live
          · rw [hbF, hbA, hbFa, hbAa]
            simp only [Heap.free_none, Heap.live_free_some]
            rw [hl4, hl3, hn2, hl2, hl1, hn1]
            have e1 : h.next + 1 + 1 = h.next + 2 := by omega
            rw [e1]
            exact erase_stack3 h.next h.live
          · rw [hbF, hbA, hbFa, hbAa]
            simp only [Heap.free_none, Heap.live_free_some]
            rw [hl4, hl3, hn2, hl2, hl1, hn1]
            have e1 : h.next + 2 + 1 = h.next + 3 := by omega
            rw [e1]
            exact erase_stack4 h.next h.live
        · simp at heq

/-- C6: if any allocation fails inside `init_parameters` (index arrays,
dense pair array, ragged spine, or any per-entry outcome block), every
previously successful allocation of that call has been freed on return,
with exactly one error raised; likewise `init_indices` on allocation
failure frees both index arrays before returning. -/
theorem C6_allocation_failure_rolls_back :
    (∀ (ok : Nat → Bool) (P : Program) (h h' : Heap) (e : Nat),
        init_parameters_alloc ok P h = (none, h', e) → h'.live = h.live ∧ e = 1) ∧
    (∀ (ok : Nat → Bool) (P : Program) (h h' : Heap) (e : Nat),
        init_indices_alloc ok P h = (none, h', e) → h'.live = h.live ∧ e = 1) :=
  ⟨init_parameters_alloc_fail, init_indices_alloc_fail⟩

theorem C6_allocation_failure_rolls_back_witness :
    (init_parameters_alloc (fun _ => false) Pc2 ⟨0, []⟩).2.1.live =
      (⟨0, []⟩ : Heap).live ∧
    (init_parameters_alloc (fun _ => false) Pc2 ⟨0, []⟩).2.2 = 1 :=
  C6_allocation_failure_rolls_back.1 (fun _ => false) Pc2 ⟨0, []⟩
    (init_parameters_alloc (fun _ => false) Pc2 ⟨0, []⟩).2.1
    (init_parameters_alloc (fun _ => false) Pc2 ⟨0, []⟩).2.2 (by decide)

/-! ### C7: storage shape invariant -/

/-- C7: after a successful `init_parameters`, the dense pair array is as
long as the fact index set, and ragged entry `i` has exactly as many
cells as the outcome count of the disjunction referenced by disjunction
index-set entry `i`. -/
theorem C7_init_parameters_storage_shapes (ok : Nat → Bool) (P : Program)
    (h h' : Heap) (W : Parameters) (e : Nat)
    (heq : init_parameters_alloc ok P h = (some W, h', e)) :
    W.F.length = W.I_F.length ∧
    W.A.length = W.I_A.length ∧
    ∀ i, i < W.A.length → (W.A.getD i []).length = (P.AD (W.I_A.getD i 0)).n := by
  unfold init_parameters_alloc at heq
  split at heq
  · simp at heq
  · split at heq
    · simp at heq
    · split at heq
      · simp at heq
      · split at heq
        · simp at heq
        · injection heq with e1 e2
          injection e1 with e1
          subst e1
          refine ⟨by simp, by simp, ?_⟩
          intro i hi
          have hi' : i < (adIdx P).length := by simpa using hi
          rw [List.getD_eq_getElem?_getD, List.getD_eq_getElem?_getD,
            List.getElem?_map, List.getElem?_eq_getElem hi']
          simp

/-- The parameter storage built for `Pc2` by an allocation-failure-free
run. -/
def Wc2 : Parameters := ⟨1, 1, [(0, 0)], [[0, 0]], [1], [0]⟩

theorem C7_init_parameters_storage_shapes_witness :
    Wc2.F.length = Wc2.I_F.length ∧
    Wc2.A.length = Wc2.I_A.length ∧
    ∀ i, i < Wc2.A.length → (Wc2.A.getD i []).length = (Pc2.AD (Wc2.I_A.getD i 0)).n :=
  C7_init_parameters_storage_shapes (fun _ => true) Pc2 ⟨0, []⟩
    ⟨5, [4, 3, 2, 1, 0]⟩ Wc2 0 (by decide)

/-! ### The EM iteration body (`clearn.c` lines 112-158) -/

/-- The struct `prob_obs_storage_t`, as read by the loop: per observation, the joint
probabilities `W->F[i_pf][1]` (field `F`), `W->A[i_ad][j]` (field `A`),
and the total observation probability `W->o` (field `o`). -/
structure ProbObs where
  F : Nat → ℚ
  A : Nat → Nat → ℚ
  o : ℚ

/-- In-place write to `P->PF[idx]`. -/
def updPF (P : Program) (idx : Nat) (f : ProbFact → ProbFact) : Program :=
  { P with PF := fun j => if j = idx then f (P.PF j) else P.PF j }

/-- In-place write to `P->AD[idx]`. -/
def updAD (P : Program) (idx : Nat) (g : AnnotDisj → AnnotDisj) : Program :=
  { P with AD := fun j => if j = idx then g (P.AD j) else P.AD j }

/-- A loop over an index list writing facts in place: at list position
`k` (the loop counter) with stored index `idx`, performs
`P->PF[idx] = g k (P->PF[idx])`. -/
def foldPF (g : Nat → ProbFact → ProbFact) : List Nat → Nat → Program → Program
  | [], _, P => P
  | idx :: rest, k, P => foldPF g rest (k + 1) (updPF P idx (g k))

/-- A loop over an index list writing annotated disjunctions in place. -/
def foldAD (g : Nat → AnnotDisj → AnnotDisj) : List Nat → Nat → Program → Program
  | [], _, P => P
  | idx :: rest, k, P => foldAD g rest (k + 1) (updAD P idx (g k))

/-- Reset loop over probabilistic facts (`clearn.c` line 123):
`P->PF[I.F[i_pf]].p = 0` for each index-set entry. -/
def reset_facts (l : List Nat) (P : Program) : Program :=
  foldPF (fun _ pf => { pf with p := 0 }) l 0 P

/-- Reset loop over annotated disjunctions (`clearn.c` lines 125-128):
`AD->P[j] = 0` for each outcome `j < AD->n` of each index-set entry. -/
def reset_ads (l : List Nat) (P : Program) : Program :=
  foldAD (fun _ ad => { ad with P := fun j => if j < ad.n then 0 else ad.P j }) l 0 P

/-- Fact accumulation for one observation (`clearn.c` lines 135-139):
`P->PF[I.F[i_pf]].p += c*(W->F[i_pf][1]/W->o)`; the loop counter is the
position `i_pf` in the index set. -/
def accum_facts (Wo : ProbObs) (c : ℚ) (l : List Nat) (k : Nat) (P : Program) : Program :=
  foldPF (fun i_pf pf => { pf with p := pf.p + c * (Wo.F i_pf / Wo.o) }) l k P

/-- Disjunction accumulation for one observation (`clearn.c` lines
141-147): `AD->P[j] += c*(W->A[i_ad][j]/W->o)` for each outcome
`j < AD->n`; the loop counter is the position `i_ad`. -/
def accum_ads (Wo : ProbObs) (c : ℚ) (l : List Nat) (k : Nat) (P : Program) : Program :=
  foldAD (fun i_ad ad =>
    { ad with P := fun j =>
        if j < ad.n then ad.P j + c * (Wo.A i_ad j / Wo.o) else ad.P j }) l k P

/-- Observation loop (`clearn.c` lines 131-148): for `i_o` from `0` to
`On - 1`, accumulate observation `i_o` with repeat count
`c = obs_counts[i_o]` into facts, then into disjunctions. -/
def accum_obs (I : Indices) (counts : Nat → Nat) (W : Nat → ProbObs) :
    Nat → Program → Program
  | 0, P => P
  | k + 1, P =>
      accum_ads (W k) (counts k) I.A 0
        (accum_facts (W k) (counts k) I.F 0 (accum_obs I counts W k P))

/-- Normalization loop over facts (`clearn.c` line 151):
`P->PF[I.F[i_pf]].p /= N`. -/
def div_facts (N : Nat) (l : List Nat) (P : Program) : Program :=
  foldPF (fun _ pf => { pf with p := pf.p / N }) l 0 P

/-- Normalization loop over disjunctions (`clearn.c` lines 153-157):
`AD->P[j] /= N` for each outcome `j < AD->n`. -/
def div_ads (N : Nat) (l : List Nat) (P : Program) : Program :=
  foldAD (fun _ ad => { ad with P := fun j => if j < ad.n then ad.P j / N else ad.P j }) l 0 P

/-- One full iteration of the `learn_fixpoint` loop body (`clearn.c`
lines 122-157) after the solver has filled the accumulator `W`: reset
the soft counts, accumulate every observation, then divide by `N`. -/
def em_step (I : Indices) (counts : Nat → Nat) (W : Nat → ProbObs) (On N : Nat)
    (P : Program) : Program :=
  div_ads N I.A (div_facts N I.F (accum_obs I counts W On (reset_ads I.A (reset_facts I.F P))))

/-! ### Frame and value lemmas for the in-place loops -/

theorem updPF_AD (P : Program) (idx : Nat) (f : ProbFact → ProbFact) :
    (updPF P idx f).AD = P.AD := rfl

theorem updAD_PF (P : Program) (idx : Nat) (g : AnnotDisj → AnnotDisj) :
    (updAD P idx g).PF = P.PF := rfl

theorem updPF_ne (P : Program) (idx : Nat) (f : ProbFact → ProbFact) (j : Nat)
    (h : j ≠ idx) : (updPF P idx f).PF j = P.PF j := by
  simp [updPF, h]

theorem updPF_eq (P : Program) (idx : Nat) (f : ProbFact → ProbFact) :
    (updPF P idx f).PF idx = f (P.PF idx) := by
  simp [updPF]

theorem updAD_ne (P : Program) (idx : Nat) (g : AnnotDisj → AnnotDisj) (j : Nat)
    (h : j ≠ idx) : (updAD P idx g).AD j = P.AD j := by
  simp [updAD, h]

theorem updAD_eq (P : Program) (idx : Nat) (g : AnnotDisj → AnnotDisj) :
    (updAD P idx g).AD idx = g (P.AD idx) := by
  simp [updAD]

theorem foldPF_AD (g : Nat → ProbFact → ProbFact) :
    ∀ (l : List Nat) (k : Nat) (P : Program), (foldPF g l k P).AD = P.AD := by
  intro l
  induction l with
  | nil => intro k P; rfl
  | cons idx rest ih =>
    intro k P
    simp only [foldPF]
    rw [ih, updPF_AD]

theorem foldAD_PF (g : Nat → AnnotDisj → AnnotDisj) :
    ∀ (l : List Nat) (k : Nat) (P : Program), (foldAD g l k P).PF = P.PF := by
  intro l
  induction l with
  | nil => intro k P; rfl
  | cons idx rest ih =>
    intro k P
    simp only [foldAD]
    rw [ih, updAD_PF]

theorem foldPF_not_mem (g : Nat → ProbFact → ProbFact) :
    ∀ (l : List Nat) (k : Nat) (P : Program) (j : Nat), j ∉ l →
      (foldPF g l k P).PF j = P.PF j := by
  intro l
  induction l with
  | nil => intro k P j _; rfl
  | cons idx rest ih =>
    intro k P j hj
    have hji : j ≠ idx := fun h => hj (h ▸ List.mem_cons_self idx rest)
    have hjr : j ∉ rest := fun h => hj (List.mem_cons_of_mem idx h)
    simp only [foldPF]
    rw [ih _ _ j hjr, updPF_ne P idx _ j hji]

theorem foldAD_not_mem (g : Nat → AnnotDisj → AnnotDisj) :
    ∀ (l : List Nat) (k : Nat) (P : Program) (j : Nat), j ∉ l →
      (foldAD g l k P).AD j = P.AD j := by
  intro l
  induction l with
  | nil => intro k P j _; rfl
  | cons idx rest ih =>
    intro k P j hj
    have hji : j ≠ idx := fun h => hj (h ▸ List.mem_cons_self idx rest)
    have hjr : j ∉ rest := fun h => hj (List.mem_cons_of_mem idx h)
    simp only [foldAD]
    rw [ih _ _ j hjr, updAD_ne P idx _ j hji]

theorem foldPF_get (g : Nat → ProbFact → ProbFact) :
    ∀ (l : List Nat), l.Nodup → ∀ (k0 : Nat) (P : Program) (k : Nat) (hk : k < l.length),
      (foldPF g l k0 P).PF (l.get ⟨k, hk⟩) = g (k0 + k) (P.PF (l.get ⟨k, hk⟩)) := by
  intro l
  induction l with
  | nil => intro _ k0 P k hk; cases hk
  | cons idx rest ih =>
    intro hnd k0 P k hk
    have hir : idx ∉ rest := (List.nodup_cons.mp hnd).1
    have hndr : rest.Nodup := (List.nodup_cons.mp hnd).2
    match k with
    | 0 =>
      show (foldPF g rest (k0 + 1) (updPF P idx (g k0))).PF idx = g (k0 + 0) (P.PF idx)
      rw [foldPF_not_mem g rest _ _ idx hir, updPF_eq, Nat.add_zero]
    | k + 1 =>
      show (foldPF g rest (k0 + 1) (updPF P idx (g k0))).PF (rest.get ⟨k, _⟩) = _
      have hmem : rest.get ⟨k, by exact Nat.lt_of_succ_lt_succ hk⟩ ∈ rest :=
        List.get_mem rest k _
      have hne : rest.get ⟨k, by exact Nat.lt_of_succ_lt_succ hk⟩ ≠ idx :=
        fun h => hir (h ▸ hmem)
      rw [ih hndr (k0 + 1) _ k _, updPF_ne P idx _ _ hne]
      have : k0 + 1 + k = k0 + (k + 1) := by omega
      rw [this]
      rfl

theorem foldAD_get (g : Nat → AnnotDisj → AnnotDisj) :
    ∀ (l : List Nat), l.Nodup → ∀ (k0 : Nat) (P : Program) (k : Nat) (hk : k < l.length),
      (foldAD g l k0 P).AD (l.get ⟨k, hk⟩) = g (k0 + k) (P.AD (l.get ⟨k, hk⟩)) := by
  intro l
  induction l with
  | nil => intro _ k0 P k hk; cases hk
  | cons idx rest ih =>
    intro hnd k0 P k hk
    have hir : idx ∉ rest := (List.nodup_cons.mp hnd).1
    have hndr : rest.Nodup := (List.nodup_cons.mp hnd).2
    match k with
    | 0 =>
      show (foldAD g rest (k0 + 1) (updAD P idx (g k0))).AD idx = g (k0 + 0) (P.AD idx)
      rw [foldAD_not_mem g rest _ _ idx hir, updAD_eq, Nat.add_zero]
    | k + 1 =>
      show (foldAD g rest (k0 + 1) (updAD P idx (g k0))).AD (rest.get ⟨k, _⟩) = _
      have hmem : rest.get ⟨k, by exact Nat.lt_of_succ_lt_succ hk⟩ ∈ rest :=
        List.get_mem rest k _
      have hne : rest.get ⟨k, by exact Nat.lt_of_succ_lt_succ hk⟩ ≠ idx :=
        fun h => hir (h ▸ hmem)
      rw [ih hndr (k0 + 1) _ k _, updAD_ne P idx _ _ hne]
      have : k0 + 1 + k = k0 + (k + 1) := by omega
      rw [this]
      rfl

theorem reset_facts_AD (l : List Nat) (P : Program) :
    (reset_facts l P).AD = P.AD := foldPF_AD _ l 0 P

theorem accum_facts_AD (Wo : ProbObs) (c : ℚ) (l : List Nat) (k : Nat) (P : Program) :
    (accum_facts Wo c l k P).AD = P.AD := foldPF_AD _ l k P

theorem div_facts_AD (N : Nat) (l : List Nat) (P : Program) :
    (div_facts N l P).AD = P.AD := foldPF_AD _ l 0 P

theorem reset_ads_PF (l : List Nat) (P : Program) :
    (reset_ads l P).PF = P.PF := foldAD_PF _ l 0 P

theorem accum_ads_PF (Wo : ProbObs) (c : ℚ) (l : List Nat) (k : Nat) (P : Program) :
    (accum_ads Wo c l k P).PF = P.PF := foldAD_PF _ l k P

theorem div_ads_PF (N : Nat) (l : List Nat) (P : Program) :
    (div_ads N l P).PF = P.PF := foldAD_PF _ l 0 P

theorem reset_facts_p (l : List Nat) (hnd : l.Nodup) (P : Program) (k : Nat)
    (hk : k < l.length) :
    ((reset_facts l P).PF (l.get ⟨k, hk⟩)).p = 0 := by
  unfold reset_facts
  rw [foldPF_get _ l hnd 0 P k hk]

theorem accum_facts_p (Wo : ProbObs) (c : ℚ) (l : List Nat) (hnd : l.Nodup)
    (k0 : Nat) (P : Program) (k : Nat) (hk : k < l.length) :
    ((accum_facts Wo c l k0 P).PF (l.get ⟨k, hk⟩)).p =
      (P.PF (l.get ⟨k, hk⟩)).p + c * (Wo.F (k0 + k) / Wo.o) := by
  unfold accum_facts
  rw [foldPF_get _ l hnd k0 P k hk]

theorem div_facts_p (N : Nat) (l : List Nat) (hnd : l.Nodup) (P : Program) (k : Nat)
    (hk : k < l.length) :
    ((div_facts N l P).PF (l.get ⟨k, hk⟩)).p = (P.PF (l.get ⟨k, hk⟩)).p / N := by
  unfold div_facts
  rw [foldPF_get _ l hnd 0 P k hk]

/-- After the observation loop, the soft count of the fact at index-set
position `k` has grown by the weighted per-observation contributions. -/
theorem accum_obs_p (I : Indices) (counts : Nat → Nat) (W : Nat → ProbObs)
    (hnd : I.F.Nodup) :
    ∀ (On : Nat) (P : Program) (k : Nat) (hk : k < I.F.length),
      ((accum_obs I counts W On P).PF (I.F.get ⟨k, hk⟩)).p =
        (P.PF (I.F.get ⟨k, hk⟩)).p +
          ∑ i_o ∈ Finset.range On, (counts i_o : ℚ) * ((W i_o).F k / (W i_o).o) := by
  intro On
  induction On with
  | zero => intro P k hk; simp [accum_obs]
  | succ On ih =>
    intro P k hk
    simp only [accum_obs]
    rw [accum_ads_PF, accum_facts_p _ _ I.F hnd 0 _ k hk, ih, Finset.sum_range_succ,
      Nat.zero_add]
    ring

/-- The value of the fact at index-set position `k` after one full
iteration body. -/
theorem em_step_p (I : Indices) (counts : Nat → Nat) (W : Nat → ProbObs) (On N : Nat)
    (P : Program) (hnd : I.F.Nodup) (k : Nat) (hk : k < I.F.length) :
    ((em_step I counts W On N P).PF (I.F.get ⟨k, hk⟩)).p =
      (∑ i_o ∈ Finset.range On, (counts i_o : ℚ) * ((W i_o).F k / (W i_o).o)) / N := by
  unfold em_step
  rw [div_ads_PF, div_facts_p N I.F hnd _ k hk, accum_obs_p I counts W hnd On _ k hk,
    reset_ads_PF, reset_facts_p I.F hnd P k hk, zero_add]

/-- C1: each iteration of the `learn_fixpoint` loop (`em_step`, its loop
body, applied to the index set built by `init_indices`) sets the
probability of the learnable fact at index-set position `k` to
`(Σ_o c_o · P(t=k,O_o)/P(O_o)) / N`, i.e. the repeat-count-weighted
soft-count average over all observations.  The spec's concrete scenario
(counts 3 and 1, solver values 0.9/1.0 and 0.1/1.0, result 0.7) is the
witness below. -/
theorem C1_iteration_fact_update (P : Program) (I : Indices) (counts : Nat → Nat)
    (W : Nat → ProbObs) (On N : Nat) (_hI : I = init_indices P) (hnd : I.F.Nodup)
    (k : Nat) (hk : k < I.F.length) :
    ((em_step I counts W On N P).PF (I.F.get ⟨k, hk⟩)).p =
      (∑ i_o ∈ Finset.range On, (counts i_o : ℚ) * ((W i_o).F k / (W i_o).o)) / N :=
  em_step_p I counts W On N P hnd k hk

/-- The spec's concrete scenario: one learnable probabilistic fact. -/
def Pc1 : Program where
  PF_n := 1
  PF := fun _ => ⟨true, 1/2⟩
  AD_n := 0
  AD := fun _ => ⟨false, 0, fun _ => 0⟩

def Ic1 : Indices := ⟨1, 0, [0], []⟩

/-- Solver mock of the spec's scenario: `P(t=1,O)=0.9, P(O)=1.0` for the
first observation and `P(t=1,O)=0.1, P(O)=1.0` for the second. -/
def Wc1 : Nat → ProbObs := fun i_o =>
  if i_o = 0 then ⟨fun _ => 9/10, fun _ _ => 0, 1⟩ else ⟨fun _ => 1/10, fun _ _ => 0, 1⟩

/-- Repeat counts of the spec's scenario: 3 and 1. -/
def countsc1 : Nat → Nat := fun i_o => if i_o = 0 then 3 else 1

theorem C1_iteration_fact_update_witness :
    ((em_step Ic1 countsc1 Wc1 2 4 Pc1).PF 0).p = 7 / 10 := by
  have h := C1_iteration_fact_update Pc1 Ic1 countsc1 Wc1 2 4 (by decide) (by decide)
    0 (by decide)
  have h2 : ((em_step Ic1 countsc1 Wc1 2 4 Pc1).PF 0).p =
      (∑ i_o ∈ Finset.range 2, (countsc1 i_o : ℚ) * ((Wc1 i_o).F 0 / (Wc1 i_o).o)) / 4 := h
  rw [h2, Finset.sum_range_succ, Finset.sum_range_succ, Finset.sum_range_zero]
  norm_num [countsc1, Wc1]

theorem reset_ads_n (l : List Nat) (hnd : l.Nodup) (P : Program) (k : Nat)
    (hk : k < l.length) :
    ((reset_ads l P).AD (l.get ⟨k, hk⟩)).n = (P.AD (l.get ⟨k, hk⟩)).n := by
  unfold reset_ads
  rw [foldAD_get _ l hnd 0 P k hk]

theorem reset_ads_P (l : List Nat) (hnd : l.Nodup) (P : Program) (k : Nat)
    (hk : k < l.length) (j : Nat) :
    ((reset_ads l P).AD (l.get ⟨k, hk⟩)).P j =
      if j < (P.AD (l.get ⟨k, hk⟩)).n then 0 else (P.AD (l.get ⟨k, hk⟩)).P j := by
  unfold reset_ads
  rw [foldAD_get _ l hnd 0 P k hk]

theorem accum_ads_n (Wo : ProbObs) (c : ℚ) (l : List Nat) (hnd : l.Nodup) (k0 : Nat)
    (P : Program) (k : Nat) (hk : k < l.length) :
    ((accum_ads Wo c l k0 P).AD (l.get ⟨k, hk⟩)).n = (P.AD (l.get ⟨k, hk⟩)).n := by
  unfold accum_ads
  rw [foldAD_get _ l hnd k0 P k hk]

theorem accum_ads_P (Wo : ProbObs) (c : ℚ) (l : List Nat) (hnd : l.Nodup) (k0 : Nat)
    (P : Program) (k : Nat) (hk : k < l.length) (j : Nat) :
    ((accum_ads Wo c l k0 P).AD (l.get ⟨k, hk⟩)).P j =
      if j < (P.AD (l.get ⟨k, hk⟩)).n then
        (P.AD (l.get ⟨k, hk⟩)).P j + c * (Wo.A (k0 + k) j / Wo.o)
      else (P.AD (l.get ⟨k, hk⟩)).P j := by
  unfold accum_ads
  rw [foldAD_get _ l hnd k0 P k hk]

theorem div_ads_n (N : Nat) (l : List Nat) (hnd : l.Nodup) (P : Program) (k : Nat)
    (hk : k < l.length) :
    ((div_ads N l P).AD (l.get ⟨k, hk⟩)).n = (P.AD (l.get ⟨k, hk⟩)).n := by
  unfold div_ads
  rw [foldAD_get _ l hnd 0 P k hk]

theorem div_ads_P (N : Nat) (l : List Nat) (hnd : l.Nodup) (P : Program) (k : Nat)
    (hk : k < l.length) (j : Nat) :
    ((div_ads N l P).AD (l.get ⟨k, hk⟩)).P j =
      if j < (P.AD (l.get ⟨k, hk⟩)).n then (P.AD (l.get ⟨k, hk⟩)).P j / N
      else (P.AD (l.get ⟨k, hk⟩)).P j := by
  unfold div_ads
  rw [foldAD_get _ l hnd 0 P k hk]

theorem accum_obs_ad_n (I : Indices) (counts : Nat → Nat) (W : Nat → ProbObs)
    (hndA : I.A.Nodup) :
    ∀ (On : Nat) (P : Program) (k : Nat) (hk : k < I.A.length),
      ((accum_obs I counts W On P).AD (I.A.get ⟨k, hk⟩)).n =
        (P.AD (I.A.get ⟨k, hk⟩)).n := by
  intro On
  induction On with
  | zero => intro P k hk; rfl
  | succ On ih =>
    intro P k hk
    simp only [accum_obs]
    rw [accum_ads_n _ _ I.A hndA 0 _ k hk, accum_facts_AD, ih]

theorem accum_obs_ad_P (I : Indices) (counts : Nat → Nat) (W : Nat → ProbObs)
    (hndA : I.A.Nodup) :
    ∀ (On : Nat) (P : Program) (k : Nat) (hk : k < I.A.length) (j : Nat),
      j < (P.AD (I.A.get ⟨k, hk⟩)).n →
      ((accum_obs I counts W On P).AD (I.A.get ⟨k, hk⟩)).P j =
        (P.AD (I.A.get ⟨k, hk⟩)).P j +
          ∑ i_o ∈ Finset.range On, (counts i_o : ℚ) * ((W i_o).A k j / (W i_o).o) := by
  intro On
  induction On with
  | zero => intro P k hk j _; simp [accum_obs]
  | succ On ih =>
    intro P k hk j hj
    simp only [accum_obs]
    rw [accum_ads_P _ _ I.A hndA 0 _ k hk j]
    rw [accum_facts_AD, accum_obs_ad_n I counts W hndA On P k hk, if_pos hj,
      ih P k hk j hj, Finset.sum_range_succ, Nat.zero_add]
    ring

/-- Pointwise value of a learnable disjunction outcome after one full
iteration body. -/
theorem em_step_ad_P (I : Indices) (counts : Nat → Nat) (W : Nat → ProbObs)
    (On N : Nat) (P : Program) (hndA : I.A.Nodup) (k : Nat) (hk : k < I.A.length)
    (j : Nat) (hj : j < (P.AD (I.A.get ⟨k, hk⟩)).n) :
    ((em_step I counts W On N P).AD (I.A.get ⟨k, hk⟩)).P j =
      (∑ i_o ∈ Finset.range On, (counts i_o : ℚ) * ((W i_o).A k j / (W i_o).o)) / N := by
  have hX0 : (reset_facts I.F P).AD = P.AD := reset_facts_AD I.F P
  have hn1 : ((reset_ads I.A (reset_facts I.F P)).AD (I.A.get ⟨k, hk⟩)).n
      = (P.AD (I.A.get ⟨k, hk⟩)).n := by
    rw [reset_ads_n I.A hndA _ k hk, hX0]
  have hn2 : ((accum_obs I counts W On (reset_ads I.A (reset_facts I.F P))).AD
      (I.A.get ⟨k, hk⟩)).n = (P.AD (I.A.get ⟨k, hk⟩)).n := by
    rw [accum_obs_ad_n I counts W hndA On _ k hk, hn1]
  unfold em_step
  rw [div_ads_P N I.A hndA _ k hk j, div_facts_AD, hn2, if_pos hj]
  rw [accum_obs_ad_P I counts W hndA On _ k hk j (by rw [hn1]; exact hj)]
  rw [reset_ads_P I.A hndA _ k hk j, hX0, if_pos hj, zero_add]

/-- C3: after each iteration body of `learn_fixpoint`, the outcome
probabilities of the learnable disjunction at index-set position `k` sum
to exactly 1, provided the solver contract holds (per observation, the
per-outcome joint probabilities sum to the observation's total
probability, which is nonzero) and `N` is the (nonzero) total repeat
count.  Since every iteration first resets the soft counts, this holds
after every one of the `niters` passes. -/
theorem C3_iteration_preserves_ad_mass (P : Program) (I : Indices)
    (counts : Nat → Nat) (W : Nat → ProbObs) (On N : Nat)
    (_hI : I = init_indices P) (hndA : I.A.Nodup) (k : Nat) (hk : k < I.A.length)
    (hcon : ∀ i_o ∈ Finset.range On,
      (∑ j ∈ Finset.range (P.AD (I.A.get ⟨k, hk⟩)).n, (W i_o).A k j) = (W i_o).o ∧
        (W i_o).o ≠ 0)
    (hsum : (∑ i_o ∈ Finset.range On, (counts i_o : ℚ)) = N) (hN : (N : ℚ) ≠ 0) :
    (∑ j ∈ Finset.range (P.AD (I.A.get ⟨k, hk⟩)).n,
      ((em_step I counts W On N P).AD (I.A.get ⟨k, hk⟩)).P j) = 1 := by
  rw [Finset.sum_congr rfl (fun j hj =>
    em_step_ad_P I counts W On N P hndA k hk j (Finset.mem_range.mp hj))]
  rw [← Finset.sum_div, Finset.sum_comm]
  have hrow : ∀ i_o ∈ Finset.range On,
      (∑ j ∈ Finset.range (P.AD (I.A.get ⟨k, hk⟩)).n,
        (counts i_o : ℚ) * ((W i_o).A k j / (W i_o).o)) = (counts i_o : ℚ) := by
    intro i_o hio
    obtain ⟨hA, ho⟩ := hcon i_o hio
    rw [← Finset.mul_sum, ← Finset.sum_div, hA, div_self ho, mul_one]
  rw [Finset.sum_congr rfl hrow, hsum, div_self hN]

/-- A concrete program with one learnable annotated disjunction over two
outcomes. -/
def Pc3 : Program where
  PF_n := 0
  PF := fun _ => ⟨false, 0⟩
  AD_n := 1
  AD := fun _ => ⟨true, 2, fun _ => 1/2⟩

def Ic3 : Indices := ⟨0, 1, [], [0]⟩

/-- Solver mock for `Pc3`: outcome 0 carries all of `P(O) = 1`. -/
def Wc3 : Nat → ProbObs := fun _ =>
  ⟨fun _ => 0, fun _ j => if j = 0 then 1 else 0, 1⟩

def countsc3 : Nat → Nat := fun _ => 1

theorem C3_iteration_preserves_ad_mass_witness :
    (∑ j ∈ Finset.range 2, ((em_step Ic3 countsc3 Wc3 2 2 Pc3).AD 0).P j) = 1 := by
  have h := C3_iteration_preserves_ad_mass Pc3 Ic3 countsc3 Wc3 2 2 (by decide)
    (by decide) 0 (by decide)
    (by simp [Wc3, Pc3, Ic3, Finset.sum_range_succ])
    (by simp [countsc3, Finset.sum_range_succ]) (by simp)
  exact h

/-! ### The full `learn_fixpoint` call (`clearn.c` lines 81-170) -/

/-- The dimensionalities and sizes of the three numpy inputs, as queried
via `PyArray_NDIM`, `PyArray_DIMS` and `PyArray_SIZE`: `obs_rows`/`obs_cols`
are `obs_dims[0]`/`obs_dims[1]`, `atoms_size` is `PyArray_SIZE(atoms)`. -/
structure Shape where
  obs_ndim : Nat
  obs_rows : Nat
  obs_cols : Nat
  counts_ndim : Nat
  counts_size : Nat
  atoms_ndim : Nat
  atoms_size : Nat
deriving DecidableEq

/-- The validation condition (`clearn.c` lines 92-93). -/
def bad_shape (s : Shape) : Bool :=
  (s.obs_ndim != 2) || (s.counts_ndim != 1) || (s.atoms_ndim != 1) ||
  (s.atoms_size != s.obs_cols) || (s.counts_size != s.obs_rows)

/-- Modelled from the spec ("Program parameter persistence"): the
externally published parameter values that `update_program_parameters`
writes through the facts' and disjunctions' Python back-references —
per fact index a scalar probability, per disjunction index an outcome
probability sequence. -/
structure ExtState where
  extF : Nat → ℚ
  extA : Nat → Nat → ℚ

/-- The `N += obs_counts[i]` loop (`clearn.c` lines 109-110). -/
def sum_counts (counts : Nat → Nat) : Nat → Nat
  | 0 => 0
  | i + 1 => sum_counts counts i + counts i

/-- The fact-publishing loop of `update_program_parameters` (`clearn.c`
lines 173-187).  Modelled from the spec for the Python side: the write of
`pf->p` to attribute `p` of fact `idx` either succeeds (recorded in
`ExtState`) or fails (oracle `failF` at loop position `i`, covering both
`PyFloat_FromDouble` and `PyObject_SetAttrString` failures), in which
case the function returns failure at once, keeping the earlier writes. -/
def publish_facts (P : Program) (failF : Nat → Bool) :
    List Nat → Nat → ExtState → Bool × ExtState
  | [], _, ext => (true, ext)
  | idx :: rest, i, ext =>
    if failF i then (false, ext)
    else
      publish_facts P failF rest (i + 1)
        { ext with extF := fun a => if a = idx then (P.PF idx).p else ext.extF a }

/-- The per-disjunction inner publishing loop (`clearn.c` lines 199-211):
write outcomes `j = 0 .. n-1` of disjunction `idx` into its published
sequence, stopping at the first failing write (oracle `failj`). -/
def publish_ad_outcomes (ad : AnnotDisj) (idx : Nat) (failj : Nat → Bool) :
    Nat → Nat → ExtState → Bool × ExtState
  | 0, _, ext => (true, ext)
  | rem + 1, j, ext =>
    if failj j then (false, ext)
    else
      publish_ad_outcomes ad idx failj rem (j + 1)
        { ext with extA := fun a b => if a = idx ∧ b = j then ad.P j else ext.extA a b }

/-- The disjunction-publishing loop (`clearn.c` lines 189-214); a failed
retrieval of the published sequence or a failed item write stops
publication, keeping everything already written. -/
def publish_ads (P : Program) (failA : Nat → Nat → Bool) :
    List Nat → Nat → ExtState → Bool × ExtState
  | [], _, ext => (true, ext)
  | idx :: rest, i, ext =>
    match publish_ad_outcomes (P.AD idx) idx (failA i) (P.AD idx).n 0 ext with
    | (false, ext') => (false, ext')
    | (true, ext') => publish_ads P failA rest (i + 1) ext'

/-- The function `update_program_parameters` (`clearn.c` lines 172-217): publish
every learnable fact's probability, then every learnable disjunction's
outcome sequence, stopping at the first failure. -/
def update_program_parameters (P : Program) (I : Indices)
    (failF : Nat → Bool) (failA : Nat → Nat → Bool) (ext : ExtState) :
    Bool × ExtState :=
  match publish_facts P failF I.F 0 ext with
  | (false, ext') => (false, ext')
  | (true, ext') => publish_ads P failA I.A 0 ext'

/-- The iteration loop (`clearn.c` lines 112-158): at iteration `it`,
call the solver (`prob_obs_reuse`, modelled from the spec as an oracle
that either fails or fills the worker's accumulator for the current
parameters), then run the iteration body `em_step`.  Returns the final
program, the number of solver calls made, the number of completed
passes, and whether every iteration succeeded. -/
def run_iters (solver : Nat → Program → Option (Nat → ProbObs)) (I : Indices)
    (counts : Nat → Nat) (On N : Nat) :
    Nat → Nat → Program → Program × Nat × Nat × Bool
  | 0, _, P => (P, 0, 0, true)
  | k + 1, it, P =>
    match solver it P with
    | none => (P, 1, 0, false)
    | some W =>
      let r := run_iters solver I counts On N k (it + 1) (em_step I counts W On N P)
      (r.1, r.2.1 + 1, r.2.2.1 + 1, r.2.2.2)

/-- The outcome of a `learn_fixpoint` call: the returned flag, the C-side
program, the Python-side published values, the heap, the raised error
messages, the number of solver calls and completed passes, and whether
control reached the publishing stage. -/
structure LFOut where
  ok : Bool
  P : Program
  ext : ExtState
  heap : Heap
  errors : List String
  solverCalls : Nat
  passes : Nat
  reachedPublish : Bool

/-- The function `learn_fixpoint` (`clearn.c` lines 81-170).  The collaborators not in
the source file are modelled from the spec: `init_observations`
allocates the observation store (one block; the parsed observation count
equals the row count `obs_dims[0]`), `init_prob_storage_seq` allocates
the single worker's accumulator storage (one block, worker count 1, or 0
on failure), `prob_obs_reuse` and the Python writes are oracles.  The
cleanup label frees the worker storage (when allocated) and the index
arrays; the observation store is never freed, and the "not learnable"
branch returns directly without running the cleanup label, exactly as
the C code does. -/
def learn_fixpoint (P : Program) (s : Shape) (counts : Nat → Nat) (niters : Nat)
    (allocOk : Nat → Bool) (solver : Nat → Program → Option (Nat → ProbObs))
    (failF : Nat → Bool) (failA : Nat → Nat → Bool) (ext : ExtState) (h : Heap) :
    LFOut :=
  if bad_shape s then
    ⟨false, P, ext, h,
      ["unexpected size dimension for obs, obs_counts and/or atoms in learn_fixpoint!"],
      0, 0, false⟩
  else
    match h.alloc allocOk with
    | (none, h1) =>
        ⟨false, P, ext, h1, ["could not initialize observations!"], 0, 0, false⟩
    | (some _, h1) =>
      match init_indices_alloc allocOk P h1 with
      | (none, h2, _) =>
          ⟨false, P, ext, h2, ["could not allocate memory in init_indices!"], 0, 0, false⟩
      | (some IA, h2, _) =>
        if IA.I.n = 0 ∧ IA.I.m = 0 then
          ⟨false, P, ext, h2, ["program is not learnable!"], 0, 0, false⟩
        else
          match h2.alloc allocOk with
          | (none, h3) =>
              ⟨false, P, ext, (h3.free IA.bF).free IA.bA,
                ["could not initialize probability storage!"], 0, 0, false⟩
          | (some bQ, h3) =>
            match run_iters solver IA.I counts s.obs_rows
                (sum_counts counts s.obs_rows) niters 0 P with
            | (P', c, pss, false) =>
                ⟨false, P', ext, ((h3.free (some bQ)).free IA.bF).free IA.bA,
                  ["solver failed in prob_obs_reuse!"], c, pss, false⟩
            | (P', c, pss, true) =>
              match update_program_parameters P' IA.I failF failA ext with
              | (false, ext') =>
                  ⟨false, P', ext', ((h3.free (some bQ)).free IA.bF).free IA.bA,
                    ["could not update program parameters!"], c, pss, true⟩
              | (true, ext') => ⟨true, P', ext', h3, [], c, pss, true⟩

/-! ### Frame lemmas: positions outside the index sets are never written -/

theorem accum_obs_PF_not_mem (I : Indices) (counts : Nat → Nat) (W : Nat → ProbObs)
    (j : Nat) (hj : j ∉ I.F) :
    ∀ (On : Nat) (P : Program), (accum_obs I counts W On P).PF j = P.PF j := by
  intro On
  induction On with
  | zero => intro P; rfl
  | succ On ih =>
    intro P
    simp only [accum_obs]
    rw [accum_ads_PF]
    unfold accum_facts
    rw [foldPF_not_mem _ I.F _ _ j hj, ih]

theorem accum_obs_AD_not_mem (I : Indices) (counts : Nat → Nat) (W : Nat → ProbObs)
    (j : Nat) (hj : j ∉ I.A) :
    ∀ (On : Nat) (P : Program), (accum_obs I counts W On P).AD j = P.AD j := by
  intro On
  induction On with
  | zero => intro P; rfl
  | succ On ih =>
    intro P
    simp only [accum_obs]
    unfold accum_ads
    rw [foldAD_not_mem _ I.A _ _ j hj, accum_facts_AD, ih]

theorem em_step_PF_not_mem (I : Indices) (counts : Nat → Nat) (W : Nat → ProbObs)
    (On N : Nat) (P : Program) (j : Nat) (hj : j ∉ I.F) :
    (em_step I counts W On N P).PF j = P.PF j := by
  unfold em_step
  rw [div_ads_PF]
  unfold div_facts
  rw [foldPF_not_mem _ I.F 0 _ j hj, accum_obs_PF_not_mem I counts W j hj, reset_ads_PF]
  unfold reset_facts
  rw [foldPF_not_mem _ I.F 0 _ j hj]

theorem em_step_AD_not_mem (I : Indices) (counts : Nat → Nat) (W : Nat → ProbObs)
    (On N : Nat) (P : Program) (j : Nat) (hj : j ∉ I.A) :
    (em_step I counts W On N P).AD j = P.AD j := by
  unfold em_step
  unfold div_ads
  rw [foldAD_not_mem _ I.A 0 _ j hj, div_facts_AD, accum_obs_AD_not_mem I counts W j hj]
  unfold reset_ads
  rw [foldAD_not_mem _ I.A 0 _ j hj, reset_facts_AD]

theorem run_iters_PF_not_mem (solver : Nat → Program → Option (Nat → ProbObs))
    (I : Indices) (counts : Nat → Nat) (On N : Nat) (j : Nat) (hj : j ∉ I.F) :
    ∀ (k it : Nat) (P : Program),
      (run_iters solver I counts On N k it P).1.PF j = P.PF j := by
  intro k
  induction k with
  | zero => intro it P; rfl
  | succ k ih =>
    intro it P
    simp only [run_iters]
    split
    · rfl
    · next W _ =>
      exact (ih (it + 1) (em_step I counts W On N P)).trans
        (em_step_PF_not_mem I counts W On N P j hj)

theorem run_iters_AD_not_mem (solver : Nat → Program → Option (Nat → ProbObs))
    (I : Indices) (counts : Nat → Nat) (On N : Nat) (j : Nat) (hj : j ∉ I.A) :
    ∀ (k it : Nat) (P : Program),
      (run_iters solver I counts On N k it P).1.AD j = P.AD j := by
  intro k
  induction k with
  | zero => intro it P; rfl
  | succ k ih =>
    intro it P
    simp only [run_iters]
    split
    · rfl
    · next W _ =>
      exact (ih (it + 1) (em_step I counts W On N P)).trans
        (em_step_AD_not_mem I counts W On N P j hj)

/-- A successful loop made exactly as many solver calls and passes as it
was asked for. -/
theorem run_iters_ok_counts (solver : Nat → Program → Option (Nat → ProbObs))
    (I : Indices) (counts : Nat → Nat) (On N : Nat) :
    ∀ (k it : Nat) (P : Program),
      (run_iters solver I counts On N k it P).2.2.2 = true →
      (run_iters solver I counts On N k it P).2.1 = k ∧
        (run_iters solver I counts On N k it P).2.2.1 = k := by
  intro k
  induction k with
  | zero => intro it P _; exact ⟨rfl, rfl⟩
  | succ k ih =>
    intro it P hok
    simp only [run_iters] at hok ⊢
    split at hok
    · simp at hok
    · next W _ =>
      dsimp only at hok ⊢
      have hih := ih (it + 1) (em_step I counts W On N P) hok
      omega

theorem publish_facts_extA (P : Program) (failF : Nat → Bool) :
    ∀ (l : List Nat) (i : Nat) (ext : ExtState),
      ((publish_facts P failF l i ext).2).extA = ext.extA := by
  intro l
  induction l with
  | nil => intro i ext; rfl
  | cons idx rest ih =>
    intro i ext
    simp only [publish_facts]
    split
    · rfl
    · rw [ih]

theorem publish_facts_extF_ne (P : Program) (failF : Nat → Bool) (a : Nat) :
    ∀ (l : List Nat), a ∉ l → ∀ (i : Nat) (ext : ExtState),
      ((publish_facts P failF l i ext).2).extF a = ext.extF a := by
  intro l
  induction l with
  | nil => intro _ i ext; rfl
  | cons idx rest ih =>
    intro ha i ext
    have hne : a ≠ idx := fun h => ha (h ▸ List.mem_cons_self idx rest)
    have har : a ∉ rest := fun h => ha (List.mem_cons_of_mem idx h)
    simp only [publish_facts]
    split
    · rfl
    · rw [ih har]
      simp [hne]

theorem publish_ad_outcomes_extF (ad : AnnotDisj) (idx : Nat) (failj : Nat → Bool) :
    ∀ (rem j : Nat) (ext : ExtState),
      ((publish_ad_outcomes ad idx failj rem j ext).2).extF = ext.extF := by
  intro rem
  induction rem with
  | zero => intro j ext; rfl
  | succ rem ih =>
    intro j ext
    simp only [publish_ad_outcomes]
    split
    · rfl
    · rw [ih]

theorem publish_ad_outcomes_extA_ne (ad : AnnotDisj) (idx : Nat) (failj : Nat → Bool)
    (a : Nat) (ha : a ≠ idx) :
    ∀ (rem j : Nat) (ext : ExtState) (b : Nat),
      ((publish_ad_outcomes ad idx failj rem j ext).2).extA a b = ext.extA a b := by
  intro rem
  induction rem with
  | zero => intro j ext b; rfl
  | succ rem ih =>
    intro j ext b
    simp only [publish_ad_outcomes]
    split
    · rfl
    · rw [ih]
      simp [ha]

theorem publish_ads_extF (P : Program) (failA : Nat → Nat → Bool) :
    ∀ (l : List Nat) (i : Nat) (ext : ExtState),
      ((publish_ads P failA l i ext).2).extF = ext.extF := by
  intro l
  induction l with
  | nil => intro i ext; rfl
  | cons idx rest ih =>
    intro i ext
    simp only [publish_ads]
    split
    · next ext' hpo =>
      have h2 : (publish_ad_outcomes (P.AD idx) idx (failA i) (P.AD idx).n 0 ext).2 = ext' :=
        congrArg Prod.snd hpo
      rw [← h2, publish_ad_outcomes_extF]
    · next ext' hpo =>
      have h2 : (publish_ad_outcomes (P.AD idx) idx (failA i) (P.AD idx).n 0 ext).2 = ext' :=
        congrArg Prod.snd hpo
      rw [ih, ← h2, publish_ad_outcomes_extF]

theorem publish_ads_extA_ne (P : Program) (failA : Nat → Nat → Bool) (a : Nat) :
    ∀ (l : List Nat), a ∉ l → ∀ (i : Nat) (ext : ExtState) (b : Nat),
      ((publish_ads P failA l i ext).2).extA a b = ext.extA a b := by
  intro l
  induction l with
  | nil => intro _ i ext b; rfl
  | cons idx rest ih =>
    intro ha i ext b
    have hne : a ≠ idx := fun h => ha (h ▸ List.mem_cons_self idx rest)
    have har : a ∉ rest := fun h => ha (List.mem_cons_of_mem idx h)
    simp only [publish_ads]
    split
    · next ext' hpo =>
      have h2 : (publish_ad_outcomes (P.AD idx) idx (failA i) (P.AD idx).n 0 ext).2 = ext' :=
        congrArg Prod.snd hpo
      rw [← h2, publish_ad_outcomes_extA_ne _ _ _ a hne]
    · next ext' hpo =>
      have h2 : (publish_ad_outcomes (P.AD idx) idx (failA i) (P.AD idx).n 0 ext).2 = ext' :=
        congrArg Prod.snd hpo
      rw [ih har, ← h2, publish_ad_outcomes_extA_ne _ _ _ a hne]

theorem update_ppp_extF_ne (P : Program) (I : Indices) (failF : Nat → Bool)
    (failA : Nat → Nat → Bool) (ext : ExtState) (a : Nat) (ha : a ∉ I.F) :
    ((update_program_parameters P I failF failA ext).2).extF a = ext.extF a := by
  unfold update_program_parameters
  split
  · next ext' hpf =>
    have h2 : (publish_facts P failF I.F 0 ext).2 = ext' := congrArg Prod.snd hpf
    rw [← h2, publish_facts_extF_ne P failF a I.F ha]
  · next ext' hpf =>
    have h2 : (publish_facts P failF I.F 0 ext).2 = ext' := congrArg Prod.snd hpf
    rw [publish_ads_extF, ← h2, publish_facts_extF_ne P failF a I.F ha]

theorem update_ppp_extA_ne (P : Program) (I : Indices) (failF : Nat → Bool)
    (failA : Nat → Nat → Bool) (ext : ExtState) (a : Nat) (ha : a ∉ I.A) (b : Nat) :
    ((update_program_parameters P I failF failA ext).2).extA a b = ext.extA a b := by
  unfold update_program_parameters
  split
  · next ext' hpf =>
    have h2 : (publish_facts P failF I.F 0 ext).2 = ext' := congrArg Prod.snd hpf
    rw [← h2, publish_facts_extA]
  · next ext' hpf =>
    have h2 : (publish_facts P failF I.F 0 ext).2 = ext' := congrArg Prod.snd hpf
    rw [publish_ads_extA_ne P failA a I.A ha, ← h2, publish_facts_extA]

/-- Combined behavioural facts about a `learn_fixpoint` call, proved by a
single case analysis over its control flow: a successful call made
exactly `niters` solver calls and passes; any exit before the publishing
stage leaves the published values untouched; and positions outside the
learnable index sets are never written, neither on the C side nor on the
Python side. -/
theorem learn_fixpoint_master (P : Program) (s : Shape) (counts : Nat → Nat)
    (niters : Nat) (allocOk : Nat → Bool)
    (solver : Nat → Program → Option (Nat → ProbObs)) (failF : Nat → Bool)
    (failA : Nat → Nat → Bool) (ext : ExtState) (h : Heap) :
    ((learn_fixpoint P s counts niters allocOk solver failF failA ext h).ok = true →
      (learn_fixpoint P s counts niters allocOk solver failF failA ext h).solverCalls
          = niters ∧
        (learn_fixpoint P s counts niters allocOk solver failF failA ext h).passes
          = niters) ∧
    ((learn_fixpoint P s counts niters allocOk solver failF failA ext h).reachedPublish
        = false →
      (learn_fixpoint P s counts niters allocOk solver failF failA ext h).ext = ext) ∧
    (∀ j, j ∉ (init_indices P).F →
      (learn_fixpoint P s counts niters allocOk solver failF failA ext h).P.PF j = P.PF j ∧
      (learn_fixpoint P s counts niters allocOk solver failF failA ext h).ext.extF j
        = ext.extF j) ∧
    (∀ j, j ∉ (init_indices P).A →
      (learn_fixpoint P s counts niters allocOk solver failF failA ext h).P.AD j = P.AD j ∧
      ∀ b, (learn_fixpoint P s counts niters allocOk solver failF failA ext h).ext.extA j b
        = ext.extA j b) := by
  unfold learn_fixpoint
  split
  · exact ⟨fun hok => absurd hok (by simp), fun _ => rfl,
      fun j _ => ⟨rfl, rfl⟩, fun j _ => ⟨rfl, fun b => rfl⟩⟩
  · split
    · exact ⟨fun hok => absurd hok (by simp), fun _ => rfl,
        fun j _ => ⟨rfl, rfl⟩, fun j _ => ⟨rfl, fun b => rfl⟩⟩
    · next h1 _ =>
      split
      · exact ⟨fun hok => absurd hok (by simp), fun _ => rfl,
          fun j _ => ⟨rfl, rfl⟩, fun j _ => ⟨rfl, fun b => rfl⟩⟩
      · next IA h2 e0 hidx =>
        obtain ⟨hIAI, -, -⟩ := init_indices_alloc_spec allocOk P h1 h2 IA e0 hidx
        split
        · exact ⟨fun hok => absurd hok (by simp), fun _ => rfl,
            fun j _ => ⟨rfl, rfl⟩, fun j _ => ⟨rfl, fun b => rfl⟩⟩
        · split
          · exact ⟨fun hok => absurd hok (by simp), fun _ => rfl,
              fun j _ => ⟨rfl, rfl⟩, fun j _ => ⟨rfl, fun b => rfl⟩⟩
          · next bQ h3 _ =>
            split
            · next P' c pss hrun =>
              have hP' : (run_iters solver IA.I counts s.obs_rows
                  (sum_counts counts s.obs_rows) niters 0 P).1 = P' :=
                congrArg Prod.fst hrun
              refine ⟨fun hok => absurd hok (by simp), fun _ => rfl, ?_, ?_⟩
              · intro j hj
                refine ⟨?_, rfl⟩
                rw [← hP']
                exact run_iters_PF_not_mem solver IA.I counts _ _ j
                  (by rw [hIAI]; exact hj) niters 0 P
              · intro j hj
                refine ⟨?_, fun b => rfl⟩
                rw [← hP']
                exact run_iters_AD_not_mem solver IA.I counts _ _ j
                  (by rw [hIAI]; exact hj) niters 0 P
            · next P' c pss hrun =>
              have hP' : (run_iters solver IA.I counts s.obs_rows
                  (sum_counts counts s.obs_rows) niters 0 P).1 = P' :=
                congrArg Prod.fst hrun
              have hc : (run_iters solver IA.I counts s.obs_rows
                  (sum_counts counts s.obs_rows) niters 0 P).2.1 = c :=
                congrArg (fun x => x.2.1) hrun
              have hps : (run_iters solver IA.I counts s.obs_rows
                  (sum_counts counts s.obs_rows) niters 0 P).2.2.1 = pss :=
                congrArg (fun x => x.2.2.1) hrun
              have hokr : (run_iters solver IA.I counts s.obs_rows
                  (sum_counts counts s.obs_rows) niters 0 P).2.2.2 = true := by
                rw [hrun]
              have hcnt := run_iters_ok_counts solver IA.I counts s.obs_rows
                (sum_counts counts s.obs_rows) niters 0 P hokr
              split
              · next ext' hupd =>
                have hext' : (update_program_parameters P' IA.I failF failA ext).2 = ext' :=
                  congrArg Prod.snd hupd
                refine ⟨fun hok => absurd hok (by simp), fun hr => absurd hr (by simp),
                  ?_, ?_⟩
                · intro j hj
                  constructor
                  · rw [← hP']
                    exact run_iters_PF_not_mem solver IA.I counts _ _ j
                      (by rw [hIAI]; exact hj) niters 0 P
                  · show ext'.extF j = ext.extF j
                    rw [← hext']
                    exact update_ppp_extF_ne P' IA.I failF failA ext j
                      (by rw [hIAI]; exact hj)
                · intro j hj
                  constructor
                  · rw [← hP']
                    exact run_iters_AD_not_mem solver IA.I counts _ _ j
                      (by rw [hIAI]; exact hj) niters 0 P
                  · intro b
                    show ext'.extA j b = ext.extA j b
                    rw [← hext']
                    exact update_ppp_extA_ne P' IA.I failF failA ext j
                      (by rw [hIAI]; exact hj) b
              · next ext' hupd =>
                have hext' : (update_program_parameters P' IA.I failF failA ext).2 = ext' :=
                  congrArg Prod.snd hupd
                refine ⟨fun _ => ?_, fun hr => absurd hr (by simp), ?_, ?_⟩
                · show c = niters ∧ pss = niters
                  rw [← hc, ← hps]
                  exact hcnt
                · intro j hj
                  constructor
                  · rw [← hP']
                    exact run_iters_PF_not_mem solver IA.I counts _ _ j
                      (by rw [hIAI]; exact hj) niters 0 P
                  · show ext'.extF j = ext.extF j
                    rw [← hext']
                    exact update_ppp_extF_ne P' IA.I failF failA ext j
                      (by rw [hIAI]; exact hj)
                · intro j hj
                  constructor
                  · rw [← hP']
                    exact run_iters_AD_not_mem solver IA.I counts _ _ j
                      (by rw [hIAI]; exact hj) niters 0 P
                  · intro b
                    show ext'.extA j b = ext.extA j b
                    rw [← hext']
                    exact update_ppp_extA_ne P' IA.I failF failA ext j
                      (by rw [hIAI]; exact hj) b

/-! ### Concrete inputs for the remaining claims -/

/-- A well-shaped input: a 1x1 observation matrix, one repeat count, one
atom label. -/
def Sgood : Shape := ⟨2, 1, 1, 1, 1, 1, 1⟩

/-- A 1-D observation matrix: shape validation must reject it. -/
def Sbad : Shape := ⟨1, 1, 1, 1, 1, 1, 1⟩

def extZero : ExtState := ⟨fun _ => 0, fun _ _ => 0⟩

def cnt1 : Nat → Nat := fun _ => 1

/-- A solver fill assigning probability mass 1/2 everywhere, `P(O) = 1`. -/
def solverHalf : Nat → Program → Option (Nat → ProbObs) :=
  fun _ _ => some (fun _ => ⟨fun _ => 1/2, fun _ _ => 1/2, 1⟩)

/-- A program with one probabilistic fact that is not learnable and no
annotated disjunctions. -/
def Pc5 : Program := ⟨1, fun _ => ⟨false, 1/2⟩, 0, fun _ => ⟨false, 0, fun _ => 0⟩⟩

/-! ### C8: exactly `niters` iterations on success -/

/-- C8: a successful `learn_fixpoint` call makes exactly `niters` solver
calls and exactly `niters` full passes (each pass being one `em_step`:
reset, accumulation and normalization), for every choice of program,
inputs and oracles — there is no early-convergence exit. -/
theorem C8_success_runs_exactly_niters (P : Program) (s : Shape) (counts : Nat → Nat)
    (niters : Nat) (allocOk : Nat → Bool)
    (solver : Nat → Program → Option (Nat → ProbObs)) (failF : Nat → Bool)
    (failA : Nat → Nat → Bool) (ext : ExtState) (h : Heap)
    (hok : (learn_fixpoint P s counts niters allocOk solver failF failA ext h).ok = true) :
    (learn_fixpoint P s counts niters allocOk solver failF failA ext h).solverCalls
        = niters ∧
      (learn_fixpoint P s counts niters allocOk solver failF failA ext h).passes
        = niters :=
  (learn_fixpoint_master P s counts niters allocOk solver failF failA ext h).1 hok

theorem C8_success_runs_exactly_niters_witness :
    (learn_fixpoint Pc2 Sgood cnt1 2 (fun _ => true) solverHalf (fun _ => false)
        (fun _ _ => false) extZero ⟨0, []⟩).solverCalls = 2 ∧
    (learn_fixpoint Pc2 Sgood cnt1 2 (fun _ => true) solverHalf (fun _ => false)
        (fun _ _ => false) extZero ⟨0, []⟩).passes = 2 :=
  C8_success_runs_exactly_niters Pc2 Sgood cnt1 2 (fun _ => true) solverHalf
    (fun _ => false) (fun _ _ => false) extZero ⟨0, []⟩ (by decide)

/-! ### C9: shape validation before any allocation -/

/-- C9: whenever the observation matrix is not 2-D, or the repeat-count
vector is not 1-D or disagrees with the observation count, or the
atom-label vector is not 1-D or disagrees with the column count,
`learn_fixpoint` fails with the validation error and performs no
allocation (the heap is returned untouched, and nothing else happens:
program and published values are unchanged). -/
theorem C9_shape_validation_rejects (P : Program) (s : Shape) (counts : Nat → Nat)
    (niters : Nat) (allocOk : Nat → Bool)
    (solver : Nat → Program → Option (Nat → ProbObs)) (failF : Nat → Bool)
    (failA : Nat → Nat → Bool) (ext : ExtState) (h : Heap)
    (hbad : s.obs_ndim ≠ 2 ∨ s.counts_ndim ≠ 1 ∨ s.counts_size ≠ s.obs_rows ∨
      s.atoms_ndim ≠ 1 ∨ s.atoms_size ≠ s.obs_cols) :
    (learn_fixpoint P s counts niters allocOk solver failF failA ext h).ok = false ∧
    (learn_fixpoint P s counts niters allocOk solver failF failA ext h).errors =
      ["unexpected size dimension for obs, obs_counts and/or atoms in learn_fixpoint!"] ∧
    (learn_fixpoint P s counts niters allocOk solver failF failA ext h).heap = h ∧
    (learn_fixpoint P s counts niters allocOk solver failF failA ext h).ext = ext ∧
    (learn_fixpoint P s counts niters allocOk solver failF failA ext h).P = P := by
  have hb : bad_shape s = true := by
    unfold bad_shape
    rcases hbad with h1 | h1 | h1 | h1 | h1 <;> simp [h1]
  unfold learn_fixpoint
  rw [if_pos hb]
  exact ⟨rfl, rfl, rfl, rfl, rfl⟩

theorem C9_shape_validation_rejects_witness :
    (learn_fixpoint Pc2 Sbad cnt1 1 (fun _ => true) solverHalf (fun _ => false)
        (fun _ _ => false) extZero ⟨0, []⟩).ok = false ∧
    (learn_fixpoint Pc2 Sbad cnt1 1 (fun _ => true) solverHalf (fun _ => false)
        (fun _ _ => false) extZero ⟨0, []⟩).errors =
      ["unexpected size dimension for obs, obs_counts and/or atoms in learn_fixpoint!"] ∧
    (learn_fixpoint Pc2 Sbad cnt1 1 (fun _ => true) solverHalf (fun _ => false)
        (fun _ _ => false) extZero ⟨0, []⟩).heap = ⟨0, []⟩ ∧
    (learn_fixpoint Pc2 Sbad cnt1 1 (fun _ => true) solverHalf (fun _ => false)
        (fun _ _ => false) extZero ⟨0, []⟩).ext = extZero ∧
    (learn_fixpoint Pc2 Sbad cnt1 1 (fun _ => true) solverHalf (fun _ => false)
        (fun _ _ => false) extZero ⟨0, []⟩).P = Pc2 :=
  C9_shape_validation_rejects Pc2 Sbad cnt1 1 (fun _ => true) solverHalf
    (fun _ => false) (fun _ _ => false) extZero ⟨0, []⟩ (by decide)

/-! ### C5: the "not learnable" rejection -/

/-- C5 (code bug): on a program with no learnable parameter at all, the
call does raise the domain error "program is not learnable!", and the
rejection is indeed made by `learn_fixpoint` itself while `init_indices`
returns the empty-empty index set as a valid result — but the observation
store allocated by `init_observations` (block 0, the only allocation) is
still live when the function returns, because line 104 returns directly
instead of running the cleanup label: the claim's "allocates nothing and
releases the index set before returning" is violated. -/
theorem C5_not_learnable_skips_cleanup :
    (learn_fixpoint Pc5 Sgood cnt1 1 (fun _ => true) solverHalf (fun _ => false)
        (fun _ _ => false) extZero ⟨0, []⟩).ok = false ∧
    (learn_fixpoint Pc5 Sgood cnt1 1 (fun _ => true) solverHalf (fun _ => false)
        (fun _ _ => false) extZero ⟨0, []⟩).errors = ["program is not learnable!"] ∧
    init_indices Pc5 = ⟨0, 0, [], []⟩ ∧
    (learn_fixpoint Pc5 Sgood cnt1 1 (fun _ => true) solverHalf (fun _ => false)
        (fun _ _ => false) extZero ⟨0, []⟩).heap.live = [0] := by
  refine ⟨by decide, by decide, by decide, by decide⟩

/-! ### C4: failed calls and the published values -/

/-- C4 (amended: restricted to failures *before* the publishing stage —
validation, initialization and solver errors; a failure inside
`update_program_parameters` itself leaves the already-published prefix
behind, see the counterexample): a call that fails before reaching the
publishing stage has mutated no externally published parameter value. -/
theorem C4_failure_before_publish_mutates_nothing (P : Program) (s : Shape)
    (counts : Nat → Nat) (niters : Nat) (allocOk : Nat → Bool)
    (solver : Nat → Program → Option (Nat → ProbObs)) (failF : Nat → Bool)
    (failA : Nat → Nat → Bool) (ext : ExtState) (h : Heap)
    (hr : (learn_fixpoint P s counts niters allocOk solver failF failA ext h).reachedPublish
      = false) :
    (learn_fixpoint P s counts niters allocOk solver failF failA ext h).ext = ext :=
  (learn_fixpoint_master P s counts niters allocOk solver failF failA ext h).2.1 hr

/-- A solver that always reports failure. -/
def solverFail : Nat → Program → Option (Nat → ProbObs) := fun _ _ => none

theorem C4_failure_before_publish_mutates_nothing_witness :
    (learn_fixpoint Pc2 Sgood cnt1 1 (fun _ => true) solverFail (fun _ => false)
        (fun _ _ => false) extZero ⟨0, []⟩).ext = extZero :=
  C4_failure_before_publish_mutates_nothing Pc2 Sgood cnt1 1 (fun _ => true) solverFail
    (fun _ => false) (fun _ _ => false) extZero ⟨0, []⟩ (by decide)

/-- Two learnable facts; the publish oracle fails at the second one. -/
def Pc4 : Program := ⟨2, fun _ => ⟨true, 1/2⟩, 0, fun _ => ⟨false, 0, fun _ => 0⟩⟩

/-- Solver fill for `Pc4`: `P(t=0,O) = 0.9`, `P(t=1,O) = 0.1`, `P(O) = 1`. -/
def W4 : Nat → ProbObs := fun _ => ⟨fun k => if k = 0 then 9/10 else 1/10, fun _ _ => 0, 1⟩

def solverC4 : Nat → Program → Option (Nat → ProbObs) := fun _ _ => some W4

/-- The Python write of the fact at index-set position 1 fails. -/
def failF4 : Nat → Bool := fun i => i == 1

/-- C4 counterexample: with two learnable facts and a publish failure at
the second one, `learn_fixpoint` returns failure, yet the first fact's
externally published probability has already been overwritten
(0 before the call, 9/10 after) — "no externally-published parameter
value has been mutated" is false for publish errors. -/
theorem C4_counterexample :
    (learn_fixpoint Pc4 Sgood cnt1 1 (fun _ => true) solverC4 failF4 (fun _ _ => false)
        extZero ⟨0, []⟩).ok = false ∧
    (learn_fixpoint Pc4 Sgood cnt1 1 (fun _ => true) solverC4 failF4 (fun _ _ => false)
        extZero ⟨0, []⟩).ext.extF 0 = 9 / 10 ∧
    extZero.extF 0 = 0 := by
  refine ⟨by decide, ?_, rfl⟩
  have hstep : (learn_fixpoint Pc4 Sgood cnt1 1 (fun _ => true) solverC4 failF4
      (fun _ _ => false) extZero ⟨0, []⟩).ext.extF 0 =
      ((em_step (init_indices Pc4) cnt1 W4 1 1 Pc4).PF 0).p := rfl
  rw [hstep]
  have hI : init_indices Pc4 = ⟨2, 0, [0, 1], []⟩ := by decide
  have h := em_step_p (init_indices Pc4) cnt1 W4 1 1 Pc4 (by rw [hI]; decide) 0
    (by decide)
  have h2 : ((em_step (init_indices Pc4) cnt1 W4 1 1 Pc4).PF 0).p =
      (∑ i_o ∈ Finset.range 1, (cnt1 i_o : ℚ) * ((W4 i_o).F 0 / (W4 i_o).o)) / 1 := h
  rw [h2, Finset.sum_range_one]
  norm_num [cnt1, W4]

/-! ### C10: non-learnable parameters are never written -/

/-- C10 (amended: collections of at most 2^16 entries, so that the
`uint16_t` index arrays do not truncate — see the counterexample):
`learn_fixpoint` never modifies a probabilistic fact whose learnable flag
is unset, nor an annotated disjunction whose learnable flag is unset,
neither on the C side nor among the externally published values: every
write goes through the learnable index sets. -/
theorem C10_non_learnable_never_written (P : Program) (s : Shape) (counts : Nat → Nat)
    (niters : Nat) (allocOk : Nat → Bool)
    (solver : Nat → Program → Option (Nat → ProbObs)) (failF : Nat → Bool)
    (failA : Nat → Nat → Bool) (ext : ExtState) (h : Heap)
    (hPF : P.PF_n ≤ 65536) (hAD : P.AD_n ≤ 65536) (j : Nat) :
    ((P.PF j).learnable = false →
      (learn_fixpoint P s counts niters allocOk solver failF failA ext h).P.PF j = P.PF j ∧
      (learn_fixpoint P s counts niters allocOk solver failF failA ext h).ext.extF j
        = ext.extF j) ∧
    ((P.AD j).learnable = false →
      (learn_fixpoint P s counts niters allocOk solver failF failA ext h).P.AD j = P.AD j ∧
      ∀ b, (learn_fixpoint P s counts niters allocOk solver failF failA ext h).ext.extA j b
        = ext.extA j b) := by
  obtain ⟨-, -, h3, h4⟩ :=
    learn_fixpoint_master P s counts niters allocOk solver failF failA ext h
  constructor
  · intro hl
    apply h3
    rw [init_indices_F, pfIdx_of_small P hPF]
    simp [List.mem_filter, hl]
  · intro hl
    apply h4
    rw [init_indices_A, adIdx_of_small P hAD]
    simp [List.mem_filter, hl]

theorem C10_non_learnable_never_written_witness :
    ((Pc2.PF 0).learnable = false →
      (learn_fixpoint Pc2 Sgood cnt1 1 (fun _ => true) solverHalf (fun _ => false)
          (fun _ _ => false) extZero ⟨0, []⟩).P.PF 0 = Pc2.PF 0 ∧
      (learn_fixpoint Pc2 Sgood cnt1 1 (fun _ => true) solverHalf (fun _ => false)
          (fun _ _ => false) extZero ⟨0, []⟩).ext.extF 0 = extZero.extF 0) ∧
    ((Pc2.AD 0).learnable = false →
      (learn_fixpoint Pc2 Sgood cnt1 1 (fun _ => true) solverHalf (fun _ => false)
          (fun _ _ => false) extZero ⟨0, []⟩).P.AD 0 = Pc2.AD 0 ∧
      ∀ b, (learn_fixpoint Pc2 Sgood cnt1 1 (fun _ => true) solverHalf (fun _ => false)
          (fun _ _ => false) extZero ⟨0, []⟩).ext.extA 0 b = extZero.extA 0 b) :=
  C10_non_learnable_never_written Pc2 Sgood cnt1 1 (fun _ => true) solverHalf
    (fun _ => false) (fun _ _ => false) extZero ⟨0, []⟩ (by decide) (by decide) 0

theorem adIdx_Pbig : adIdx Pbig = [] := rfl

theorem init_indices_Pbig : init_indices Pbig = ⟨1, 0, [0], []⟩ := by
  unfold init_indices
  rw [pfIdx_Pbig, adIdx_Pbig]
  rfl

theorem init_indices_alloc_Pbig :
    init_indices_alloc (fun _ => true) Pbig ⟨1, [0]⟩ =
      (some ⟨⟨1, 0, [0], []⟩, some 1, none⟩, ⟨2, [1, 0]⟩, 0) := by
  unfold init_indices_alloc
  rw [pfIdx_Pbig, adIdx_Pbig, init_indices_Pbig]
  simp [Heap.alloc]

/-- Solver fill for `Pbig`: joint probability 9/10, `P(O) = 1`. -/
def W10 : Nat → ProbObs := fun _ => ⟨fun _ => 9/10, fun _ _ => 0, 1⟩

def solver10 : Nat → Program → Option (Nat → ProbObs) := fun _ _ => some W10

/-- C10 counterexample: on `Pbig` (only fact 65536 is learnable), the
truncated `uint16_t` index array is `[0]`, so one `learn_fixpoint`
iteration overwrites the probability of the *non-learnable* fact 0,
changing it from 1/2 to 9/10. -/
theorem C10_counterexample :
    (Pbig.PF 0).learnable = false ∧
    ((learn_fixpoint Pbig Sgood cnt1 1 (fun _ => true) solver10 (fun _ => false)
        (fun _ _ => false) extZero ⟨0, []⟩).P.PF 0).p = 9 / 10 ∧
    (Pbig.PF 0).p = 1 / 2 := by
  refine ⟨by decide, ?_, rfl⟩
  have hrun : run_iters solver10 (⟨1, 0, [0], []⟩ : Indices) cnt1 1 1 1 0 Pbig =
      (em_step ⟨1, 0, [0], []⟩ cnt1 W10 1 1 Pbig, 1, 1, true) := rfl
  have hP : (learn_fixpoint Pbig Sgood cnt1 1 (fun _ => true) solver10 (fun _ => false)
      (fun _ _ => false) extZero ⟨0, []⟩).P = em_step ⟨1, 0, [0], []⟩ cnt1 W10 1 1 Pbig := by
    unfold learn_fixpoint
    rw [if_neg (show ¬bad_shape Sgood = true by decide)]
    rw [show (⟨0, []⟩ : Heap).alloc (fun _ => true) = (some 0, ⟨1, [0]⟩) from rfl]
    dsimp only
    rw [init_indices_alloc_Pbig]
    dsimp only
    rw [if_neg (show ¬((1 : Nat) = 0 ∧ (0 : Nat) = 0) by decide)]
    rw [show (⟨2, [1, 0]⟩ : Heap).alloc (fun _ => true) = (some 2, ⟨3, [2, 1, 0]⟩) from rfl]
    dsimp only
    rw [show Sgood.obs_rows = 1 from rfl, show sum_counts cnt1 1 = 1 from rfl]
    rw [hrun]
    dsimp only
    rcases hu : update_program_parameters (em_step ⟨1, 0, [0], []⟩ cnt1 W10 1 1 Pbig)
        ⟨1, 0, [0], []⟩ (fun _ => false) (fun _ _ => false) extZero with ⟨okU, ext'⟩
    cases okU
    · rfl
    · rfl
  rw [hP]
  have h := em_step_p (⟨1, 0, [0], []⟩ : Indices) cnt1 W10 1 1 Pbig (by decide) 0 (by decide)
  have h2 : ((em_step (⟨1, 0, [0], []⟩ : Indices) cnt1 W10 1 1 Pbig).PF 0).p =
      (∑ i_o ∈ Finset.range 1, (cnt1 i_o : ℚ) * ((W10 i_o).F 0 / (W10 i_o).o)) / 1 := h
  rw [h2, Finset.sum_range_one]
  norm_num [cnt1, W10]
